import Mathlib

/-!
# Geolocation service: the location domain service

A shallow embedding of `internal/service/location` (`location.go`, `store.go`,
`service.go`) and of the two HTTP handlers of `internal/http/location.go` that
guard the service with coordinate validation.

* Go `float64` values are modelled by `F64`: NaN, the two infinities, negative
  zero and the finite values (a rational each; every finite `float64` is one).
  The comparison operators follow IEEE 754 as Go implements them: every
  ordered comparison with NaN is false, and negative zero compares equal to
  zero.
* Rounded arithmetic and the `math` package functions are not computed here;
  they are carried as a record of operations (`FloatMath`) and the general
  theorems hold for whatever those operations are, or for those that satisfy
  the exact IEEE 754 facts a theorem names. Concrete inputs are run with the
  evaluable stand-ins `ratMath` and `signedMath`.
* `LocationStore` is a Go interface; it is modelled by a record of state
  transformers over an arbitrary store state, and every service operation
  returns, next to its Go results, the final store state and the sequence of
  store methods it invoked.
-/

set_option linter.dupNamespace false

namespace Geolocation

/-! ## float64 -/

/-- Values of a Go `float64`. -/
inductive F64 where
  | nan
  | negInf
  | posInf
  | negZero
  | fin (q : ℚ)
  deriving DecidableEq

namespace F64

/-- Test for NaN. -/
def isNaN : F64 → Bool
  | nan => true
  | _ => false

/-- Go `a < b` on `float64`. -/
def lt : F64 → F64 → Bool
  | nan, _ => false
  | _, nan => false
  | negInf, negInf => false
  | negInf, _ => true
  | _, negInf => false
  | posInf, _ => false
  | _, posInf => true
  | negZero, negZero => false
  | negZero, fin q => decide (0 < q)
  | fin p, negZero => decide (p < 0)
  | fin p, fin q => decide (p < q)

/-- Go `a > b` on `float64`. -/
def gt (a b : F64) : Bool := lt b a

/-- Go `a <= b` on `float64`. -/
def le : F64 → F64 → Bool
  | nan, _ => false
  | _, nan => false
  | negInf, _ => true
  | _, negInf => false
  | _, posInf => true
  | posInf, _ => false
  | negZero, negZero => true
  | negZero, fin q => decide (0 ≤ q)
  | fin p, negZero => decide (p ≤ 0)
  | fin p, fin q => decide (p ≤ q)

end F64

/-- Go `a >= b` on `float64`. -/
def F64.ge (a b : F64) : Bool := F64.le b a

/-- Go `-a` on `float64`. -/
def F64.neg : F64 → F64
  | .nan => .nan
  | .negInf => .posInf
  | .posInf => .negInf
  | .negZero => .fin 0
  | .fin q => if q = 0 then .negZero else .fin (-q)

/-- Test for a finite value. -/
def F64.isFinite : F64 → Bool
  | .negZero => true
  | .fin _ => true
  | _ => false

/-- Test for a zero of either sign. -/
def F64.isZero : F64 → Bool
  | .negZero => true
  | .fin q => decide (q = 0)
  | _ => false

/-- Go `a == b` on `float64`. -/
def F64.eq : F64 → F64 → Bool
  | .nan, _ => false
  | _, .nan => false
  | .negInf, .negInf => true
  | .negInf, _ => false
  | _, .negInf => false
  | .posInf, .posInf => true
  | .posInf, _ => false
  | _, .posInf => false
  | .negZero, .negZero => true
  | .negZero, .fin q => decide (0 = q)
  | .fin p, .negZero => decide (p = 0)
  | .fin p, .fin q => decide (p = q)

/-- The `float64` arithmetic and the `math` package functions used by
`HaversineDistance`. They round, so they are not computed in this development:
the record carries them and the theorems quantify over it. -/
structure FloatMath where
  Pi : F64
  add : F64 → F64 → F64
  sub : F64 → F64 → F64
  mul : F64 → F64 → F64
  div : F64 → F64 → F64
  Sin : F64 → F64
  Cos : F64 → F64
  Sqrt : F64 → F64
  Atan2 : F64 → F64 → F64

/-! ## location.go -/

/-- Go `Location`. `time.Time` is kept as an integer instant. -/
structure Location where
  ID : Nat
  Name : String
  Latitude : F64
  Longitude : F64
  CreatedAt : Int
  UpdatedAt : Int
  deriving DecidableEq

/-- Go `CreateLocationRequest`. -/
structure CreateLocationRequest where
  Name : String
  Latitude : F64
  Longitude : F64
  deriving DecidableEq

/-- Go `DistanceCalculator`: an empty struct in the source; here it carries the
float arithmetic its method uses. -/
structure DistanceCalculator where
  math : FloatMath

/-- Go `(*DistanceCalculator).HaversineDistance`. -/
def DistanceCalculator.HaversineDistance (dc : DistanceCalculator)
    (lat1 lon1 lat2 lon2 : F64) : F64 :=
  let m := dc.math
  let R : F64 := F64.fin 6371
  let lat1Rad := m.div (m.mul lat1 m.Pi) (F64.fin 180)
  let lon1Rad := m.div (m.mul lon1 m.Pi) (F64.fin 180)
  let lat2Rad := m.div (m.mul lat2 m.Pi) (F64.fin 180)
  let lon2Rad := m.div (m.mul lon2 m.Pi) (F64.fin 180)
  let dlat := m.sub lat2Rad lat1Rad
  let dlon := m.sub lon2Rad lon1Rad
  let a := m.add
    (m.mul (m.Sin (m.div dlat (F64.fin 2))) (m.Sin (m.div dlat (F64.fin 2))))
    (m.mul
      (m.mul (m.mul (m.Cos lat1Rad) (m.Cos lat2Rad)) (m.Sin (m.div dlon (F64.fin 2))))
      (m.Sin (m.div dlon (F64.fin 2))))
  let c := m.mul (F64.fin 2) (m.Atan2 (m.Sqrt a) (m.Sqrt (m.sub (F64.fin 1) a)))
  let distance := m.mul R c
  distance

/-! ## service.go: errors and validation -/

/-- Go `error` values that occur in the service: the three error types of
`service.go`, gorm's `ErrRecordNotFound`, and any other error of the store. -/
inductive Error where
  | DuplicateNameError (Name : String)
  | NoLocationsError
  | ValidationError (Field : String) (Message : String)
  | ErrRecordNotFound
  | other (msg : String)
  deriving DecidableEq

/-- The `Error()` method of each error. -/
def Error.Error : Error → String
  | .DuplicateNameError n => "Location name already exists: " ++ n
  | .NoLocationsError => "No locations found"
  | .ValidationError f m => f ++ ": " ++ m
  | .ErrRecordNotFound => "record not found"
  | .other msg => msg

/-- Go `ValidateCoordinates`; `none` is the nil error. -/
def ValidateCoordinates (lat lng : F64) : Option Error :=
  if F64.lt lat (F64.fin (-90)) || F64.gt lat (F64.fin 90) then
    some (.ValidationError "latitude" "must be between -90 and 90")
  else if F64.lt lng (F64.fin (-180)) || F64.gt lng (F64.fin 180) then
    some (.ValidationError "longitude" "must be between -180 and 180")
  else
    none

/-- The closed box of the specification, with Go comparisons:
`-90 <= lat <= 90` and `-180 <= lon <= 180`. -/
def inBox (lat lng : F64) : Prop :=
  F64.le (F64.fin (-90)) lat = true ∧ F64.le lat (F64.fin 90) = true ∧
  F64.le (F64.fin (-180)) lng = true ∧ F64.le lng (F64.fin 180) = true

/-! ## store.go: the store interface -/

/-- Go `LocationStore`, an interface. An implementation is a record of state
transformers over its own state `σ`; each method returns its Go results and
the state it leaves. `Create` receives a pointer: the `Location` it returns is
the pointed-to value after the call. -/
structure LocationStore (σ : Type) where
  Create : Location → σ → (Location × Option Error) × σ
  GetAll : σ → (List Location × Option Error) × σ
  GetByName : String → σ → (Option Location × Option Error) × σ
  DeleteByName : String → σ → Option Error × σ
  NameExists : String → σ → (Bool × Option Error) × σ

/-- One invocation of a store method, with its argument. -/
inductive StoreCall where
  | Create (location : Location)
  | GetAll
  | GetByName (name : String)
  | DeleteByName (name : String)
  | NameExists (name : String)
  deriving DecidableEq

/-- Outcome of a service operation: its Go results, the store state it leaves
and the store methods it invoked, in order. -/
structure Outcome (σ : Type) (α : Type) where
  result : α
  state : σ
  calls : List StoreCall

/-! ## service.go: the service -/

/-- Go `LocationService`. -/
structure LocationService (σ : Type) where
  repo : LocationStore σ
  Calculator : DistanceCalculator

/-- Go `NewLocationService`. -/
def NewLocationService {σ : Type} (repo : LocationStore σ)
    (calculator : DistanceCalculator) : LocationService σ :=
  { repo := repo, Calculator := calculator }

/-- Go `(*LocationService).CreateLocation`. -/
def LocationService.CreateLocation {σ : Type} (s : LocationService σ)
    (req : CreateLocationRequest) (st : σ) :
    Outcome σ (Option Location × Option Error) :=
  match s.repo.NameExists req.Name st with
  | ((found, err), st1) =>
    match err with
    | some e => ⟨(none, some e), st1, [.NameExists req.Name]⟩
    | none =>
      if found then
        ⟨(none, some (.DuplicateNameError req.Name)), st1, [.NameExists req.Name]⟩
      else
        let location : Location :=
          { ID := 0, Name := req.Name, Latitude := req.Latitude,
            Longitude := req.Longitude, CreatedAt := 0, UpdatedAt := 0 }
        match s.repo.Create location st1 with
        | ((stored, err2), st2) =>
          match err2 with
          | some e => ⟨(none, some e), st2, [.NameExists req.Name, .Create location]⟩
          | none => ⟨(some stored, none), st2, [.NameExists req.Name, .Create location]⟩

/-- Go `(*LocationService).GetAllLocations`. -/
def LocationService.GetAllLocations {σ : Type} (s : LocationService σ) (st : σ) :
    Outcome σ (List Location × Option Error) :=
  match s.repo.GetAll st with
  | (r, st1) => ⟨r, st1, [.GetAll]⟩

/-- The `for i, location := range locations` loop of `FindNearestLocation`,
from index `i` on. `nearest` is the pointer `&locations[i]`, kept as the index
it points at. -/
def nearestLoop (dc : DistanceCalculator) (lat lng : F64) :
    List Location → Nat → Option Nat → F64 → Option Nat × F64
  | [], _, nearest, minDistance => (nearest, minDistance)
  | location :: rest, i, nearest, minDistance =>
    let distance := dc.HaversineDistance lat lng location.Latitude location.Longitude
    if i == 0 || F64.lt distance minDistance then
      nearestLoop dc lat lng rest (i + 1) (some i) distance
    else
      nearestLoop dc lat lng rest (i + 1) nearest minDistance

/-- Go `(*LocationService).FindNearestLocation`. -/
def LocationService.FindNearestLocation {σ : Type} (s : LocationService σ)
    (lat lng : F64) (st : σ) : Outcome σ (Option Location × F64 × Option Error) :=
  match s.repo.GetAll st with
  | ((locations, err), st1) =>
    match err with
    | some e => ⟨(none, F64.fin 0, some e), st1, [.GetAll]⟩
    | none =>
      if locations.length == 0 then
        ⟨(none, F64.fin 0, some .NoLocationsError), st1, [.GetAll]⟩
      else
        match nearestLoop s.Calculator lat lng locations 0 none (F64.fin 0) with
        | (nearest, minDistance) =>
          ⟨(nearest.bind (fun i => locations[i]?), minDistance, none), st1, [.GetAll]⟩

/-- Go `(*LocationService).DeleteLocationByName`. -/
def LocationService.DeleteLocationByName {σ : Type} (s : LocationService σ)
    (name : String) (st : σ) : Outcome σ (Option Error) :=
  match s.repo.GetByName name st with
  | ((_, err), st1) =>
    match err with
    | some e => ⟨some e, st1, [.GetByName name]⟩
    | none =>
      match s.repo.DeleteByName name st1 with
      | (err2, st2) => ⟨err2, st2, [.GetByName name, .DeleteByName name]⟩

/-! ## A store kept in a list -/

/-- A store whose state is the list of its Locations, in insertion order, and
whose methods never fail except `GetByName` on an absent name, which reports
gorm's `ErrRecordNotFound` as `LocationRepo.GetByName` does. `Create` appends
the Location with a fresh identifier; `DeleteByName` removes every Location of
that name; `NameExists` and `GetByName` look the name up. -/
def listStore : LocationStore (List Location) where
  Create := fun location st =>
    let stored := { location with ID := (st.map (·.ID)).foldl max 0 + 1 }
    ((stored, none), st ++ [stored])
  GetAll := fun st => ((st, none), st)
  GetByName := fun name st =>
    match st.find? (fun l => l.Name == name) with
    | some l => ((some l, none), st)
    | none => ((none, some .ErrRecordNotFound), st)
  DeleteByName := fun name st => (none, st.filter (fun l => !(l.Name == name)))
  NameExists := fun name st => ((st.any (fun l => l.Name == name), none), st)

/-- One call of the service in a sequential run. -/
inductive ServiceCall where
  | CreateLocation (req : CreateLocationRequest)
  | DeleteLocationByName (name : String)

/-- Store state after one service call. -/
def ServiceCall.run {σ : Type} (s : LocationService σ) (st : σ) : ServiceCall → σ
  | .CreateLocation req => (s.CreateLocation req st).state
  | .DeleteLocationByName name => (s.DeleteLocationByName name st).state

/-- Store state after a sequence of service calls, first to last. -/
def runCalls {σ : Type} (s : LocationService σ) (st : σ) (cs : List ServiceCall) : σ :=
  cs.foldl (ServiceCall.run s) st

/-! ## internal/http/location.go: the two validating handlers -/

/-- Body of a JSON response written by a handler. -/
inductive ResponseBody where
  | error (msg : String)
  | location (l : Option Location)
  | nearest (location : Option Location) (distance_km : F64)
  deriving DecidableEq

/-- Response written with `c.JSON`. -/
structure Response where
  status : Nat
  body : ResponseBody
  deriving DecidableEq

/-- One failed check of the struct validator: the field and the tag that
failed on it. -/
structure FieldError where
  Field : String
  Tag : String
  deriving DecidableEq

/-- The checks of the tags `binding:"required,min=lo,max=hi"` on a `float64`
field, as go-playground/validator runs them: in the order of the tags, stopping
at the first that fails. `required` fails on the zero value, `min` fails unless
`v >= lo`, `max` fails unless `v <= hi`. -/
def validateFloatField (field : String) (v lo hi : F64) : List FieldError :=
  if F64.eq v (F64.fin 0) then [⟨field, "required"⟩]
  else if !(F64.ge v lo) then [⟨field, "min"⟩]
  else if !(F64.le v hi) then [⟨field, "max"⟩]
  else []

/-- The struct validation of a `CreateLocationRequest` by its `binding` tags
(`location.go`): `Name` is `required`, `Latitude` is `required,min=-90,max=90`,
`Longitude` is `required,min=-180,max=180`. The fields are checked in
declaration order and the failures collected. -/
def CreateLocationRequest.bindingErrors (req : CreateLocationRequest) : List FieldError :=
  (if req.Name == "" then [⟨"Name", "required"⟩] else []) ++
  validateFloatField "Latitude" req.Latitude (F64.fin (-90)) (F64.fin 90) ++
  validateFloatField "Longitude" req.Longitude (F64.fin (-180)) (F64.fin 180)

/-- Go `(*DefaultValidator).ValidateStruct` (`internal/app/val.go`, installed
as `binding.Validator` by `RegisterRoutes`) on a `*CreateLocationRequest`:
the error of `v.validate.Struct(obj)`, `none` when every check passes.
`errorText` is the `Error()` text the validator gives to its failures. -/
def DefaultValidator.ValidateStruct (errorText : List FieldError → String)
    (req : CreateLocationRequest) : Option String :=
  match req.bindingErrors with
  | [] => none
  | e :: es => some (errorText (e :: es))

/-- The call `c.ShouldBindJSON(&req)` of gin: the JSON decoding of the body,
whose result is `decoded` (the request, or the decoding error), followed by
`binding.Validator.ValidateStruct`. -/
def ShouldBindJSON (errorText : List FieldError → String)
    (decoded : Except String CreateLocationRequest) :
    Except String CreateLocationRequest :=
  match decoded with
  | .error msg => .error msg
  | .ok req =>
    match DefaultValidator.ValidateStruct errorText req with
    | some msg => .error msg
    | none => .ok req

/-- Go `(*LocationController).CreateLocation`, on the service of `manualwire`.
`decoded` is the JSON decoding of the request body and `errorText` the text of
the validator's errors, see `ShouldBindJSON`. Logging is left out. -/
def LocationController.CreateLocation {σ : Type} (service : LocationService σ)
    (errorText : List FieldError → String)
    (decoded : Except String CreateLocationRequest) (st : σ) : Outcome σ Response :=
  match ShouldBindJSON errorText decoded with
  | .error msg => ⟨⟨400, .error msg⟩, st, []⟩
  | .ok req =>
    match ValidateCoordinates req.Latitude req.Longitude with
    | some err => ⟨⟨400, .error err.Error⟩, st, []⟩
    | none =>
      match service.CreateLocation req st with
      | ⟨(createdLocation, err), st1, calls⟩ =>
        match err with
        | some (.DuplicateNameError n) =>
          ⟨⟨409, .error (Error.DuplicateNameError n).Error⟩, st1, calls⟩
        | some _ => ⟨⟨500, .error "Failed to create location"⟩, st1, calls⟩
        | none => ⟨⟨201, .location createdLocation⟩, st1, calls⟩

/-- Go `(*LocationController).GetNearest`, on the service of `manualwire`.
`latStr` and `lngStr` are the query parameters `lat` and `lng`; `ParseFloat`
is `strconv.ParseFloat(·, 64)`, `none` when it reports an error. -/
def LocationController.GetNearest {σ : Type} (service : LocationService σ)
    (ParseFloat : String → Option F64) (latStr lngStr : String) (st : σ) :
    Outcome σ Response :=
  if latStr == "" || lngStr == "" then
    ⟨⟨400, .error "lat and lng query parameters are required"⟩, st, []⟩
  else
    match ParseFloat latStr with
    | none => ⟨⟨400, .error "Invalid latitude value"⟩, st, []⟩
    | some lat =>
      match ParseFloat lngStr with
      | none => ⟨⟨400, .error "Invalid longitude value"⟩, st, []⟩
      | some lng =>
        match ValidateCoordinates lat lng with
        | some err => ⟨⟨400, .error err.Error⟩, st, []⟩
        | none =>
          match service.FindNearestLocation lat lng st with
          | ⟨(nearest, distance, err), st1, calls⟩ =>
            match err with
            | some .NoLocationsError =>
              ⟨⟨404, .error Error.NoLocationsError.Error⟩, st1, calls⟩
            | some _ => ⟨⟨500, .error "Failed to find nearest location"⟩, st1, calls⟩
            | none => ⟨⟨200, .nearest nearest distance⟩, st1, calls⟩

/-- Distance of a stored Location from the query, as the scan of
`FindNearestLocation` computes it. -/
abbrev distanceTo (dc : DistanceCalculator) (lat lng : F64) (l : Location) : F64 :=
  dc.HaversineDistance lat lng l.Latitude l.Longitude

/-! ## Exact facts of float64 arithmetic

`HaversineDistance` is embedded with every operation rounding on its own (no
fused multiply-add). What a float operation returns in general depends on
rounding and is left open; the records below state facts that hold exactly
in IEEE 754 arithmetic and for the special cases documented for Go's `math`
package, and the theorems on `HaversineDistance` assume only these. -/

/-- NaN operands give NaN results. -/
structure FloatMath.PropagatesNaN (m : FloatMath) : Prop where
  add_nan_left : ∀ b, m.add .nan b = .nan
  add_nan_right : ∀ a, m.add a .nan = .nan
  sub_nan_left : ∀ b, m.sub .nan b = .nan
  sub_nan_right : ∀ a, m.sub a .nan = .nan
  mul_nan_left : ∀ b, m.mul .nan b = .nan
  mul_nan_right : ∀ a, m.mul a .nan = .nan
  div_nan_left : ∀ b, m.div .nan b = .nan
  div_nan_right : ∀ a, m.div a .nan = .nan
  Sin_nan : m.Sin .nan = .nan
  Cos_nan : m.Cos .nan = .nan
  Sqrt_nan : m.Sqrt .nan = .nan
  Atan2_nan_left : ∀ x, m.Atan2 .nan x = .nan
  Atan2_nan_right : ∀ y, m.Atan2 y .nan = .nan

/-- Sign symmetries: swapping the operands of a subtraction negates the result
(or both results are `+0`, when the operands are equal), negation passes
through division, multiplication and `Sin`, and multiplication commutes. -/
structure FloatMath.SignSymmetric (m : FloatMath) : Prop where
  sub_swap : ∀ a b, m.sub b a = (m.sub a b).neg ∨
    (m.sub a b = .fin 0 ∧ m.sub b a = .fin 0)
  div_neg : ∀ a b, m.div a.neg b = (m.div a b).neg
  mul_comm : ∀ a b, m.mul a b = m.mul b a
  mul_neg : ∀ a b, m.mul a b.neg = (m.mul a b).neg
  Sin_neg : ∀ a, m.Sin a.neg = (m.Sin a).neg

/-- Exact results at zero and one: `x - x`, `0 / 2`, `Sin 0`, `x * 0`, `0 + 0`,
`Sqrt 0` and `Atan2 0 1` are zeros, `1 - 0` and `Sqrt 1` are `1`, and a product
of two cosines of finite arguments is finite. -/
structure FloatMath.ExactAtZero (m : FloatMath) : Prop where
  sub_self : ∀ a, a.isFinite = true → (m.sub a a).isZero = true
  div_two : ∀ z, z.isZero = true → (m.div z (.fin 2)).isZero = true
  Sin_zero : ∀ z, z.isZero = true → (m.Sin z).isZero = true
  mul_zero : ∀ a z, a.isFinite = true → z.isZero = true → (m.mul a z).isZero = true
  add_zero : ∀ y z, y.isZero = true → z.isZero = true → (m.add y z).isZero = true
  Sqrt_zero : ∀ z, z.isZero = true → (m.Sqrt z).isZero = true
  Atan2_zero_one : ∀ z, z.isZero = true → (m.Atan2 z (.fin 1)).isZero = true
  one_sub_zero : ∀ z, z.isZero = true → m.sub (.fin 1) z = .fin 1
  Sqrt_one : m.Sqrt (.fin 1) = .fin 1
  Cos_mul_Cos : ∀ a b, a.isFinite = true → b.isFinite = true →
    (m.mul (m.Cos a) (m.Cos b)).isFinite = true

/-! ## Concrete instances used to evaluate the definitions -/

/-- Rational value of a finite `float64`. -/
def F64.toRat? : F64 → Option ℚ
  | .fin q => some q
  | .negZero => some 0
  | _ => none

/-- Lift of an exact rational operation to `F64`: computed on finite operands,
NaN otherwise. -/
def ratOp (f : ℚ → ℚ → ℚ) (a b : F64) : F64 :=
  match a.toRat?, b.toRat? with
  | some p, some q => .fin (f p q)
  | _, _ => .nan

/-- A stand-in for the float arithmetic, evaluable on rationals: exact field
operations and the small-angle forms `Sin x = x`, `Cos x = 1`,
`Atan2 y x = y`, with `Sqrt` the identity and `Pi = 180`; NaN operands give
NaN. It is not the Go `math` package; it only serves to run the definitions on
concrete inputs. -/
def ratMath : FloatMath where
  Pi := .fin 180
  add := ratOp (· + ·)
  sub := ratOp (· - ·)
  mul := ratOp (· * ·)
  div := ratOp (· / ·)
  Sin := fun x => x
  Cos := fun x => match x.toRat? with
    | some _ => .fin 1
    | none => .nan
  Sqrt := fun x => x
  Atan2 := fun y x => if x.isNaN then .nan else y

/-- Sign bit of a `float64` that is not NaN. -/
def F64.signBit : F64 → Bool
  | .negInf => true
  | .negZero => true
  | .fin q => decide (q < 0)
  | _ => false

/-- The finite value `r`; when `r` is zero, the zero of the given sign. -/
def F64.ofRat (negative : Bool) (r : ℚ) : F64 :=
  if r = 0 then (if negative then .negZero else .fin 0) else .fin r

/-- Exact sum of finite operands, NaN otherwise; a zero sum is `-0` only when
both operands are negative. -/
def F64.addExact (a b : F64) : F64 :=
  match a.toRat?, b.toRat? with
  | some p, some q => F64.ofRat (a.signBit && b.signBit) (p + q)
  | _, _ => .nan

/-- Exact difference of finite operands, NaN otherwise; a zero difference is
`-0` only for `(-0) - (+0)`. -/
def F64.subExact (a b : F64) : F64 :=
  match a.toRat?, b.toRat? with
  | some p, some q => F64.ofRat (a.signBit && !b.signBit) (p - q)
  | _, _ => .nan

/-- Exact product of finite operands, NaN otherwise; the sign of a zero
product is the exclusive or of the operands' signs. -/
def F64.mulExact (a b : F64) : F64 :=
  match a.toRat?, b.toRat? with
  | some p, some q => F64.ofRat (xor a.signBit b.signBit) (p * q)
  | _, _ => .nan

/-- Exact quotient of finite operands by a non-zero divisor, NaN otherwise. -/
def F64.divExact (a b : F64) : F64 :=
  match a.toRat?, b.toRat? with
  | some p, some q =>
    if q = 0 then .nan else F64.ofRat (xor a.signBit b.signBit) (p / q)
  | _, _ => .nan

/-- A second stand-in for the float arithmetic, evaluable on rationals, that
keeps the sign of zero as IEEE 754 does: exact field operations on finite
operands, the small-angle forms `Sin x = x`, `Cos x = 1`, `Atan2 y x = y`,
`Sqrt` the identity, and `Pi` the `float64` value of `math.Pi`. It is not the
Go `math` package; it only serves to run the definitions on concrete inputs. -/
def signedMath : FloatMath where
  Pi := .fin (884279719003555 / 281474976710656)
  add := F64.addExact
  sub := F64.subExact
  mul := F64.mulExact
  div := F64.divExact
  Sin := fun x => x
  Cos := fun x => match x.toRat? with
    | some _ => .fin 1
    | none => .nan
  Sqrt := fun x => x
  Atan2 := fun y x => if x.isNaN then .nan else y

/-- The service of `manualwire` on the list store, with the stand-in arithmetic. -/
def listService : LocationService (List Location) :=
  NewLocationService listStore { math := ratMath }

/-! ## Theorems -/

/-- Helper: on operands that are not NaN, `a < b` is false exactly when `b <= a`. -/
theorem F64.lt_eq_false_iff (a b : F64) (ha : a.isNaN = false) (hb : b.isNaN = false) :
    F64.lt a b = false ↔ F64.le b a = true := by
  cases a <;> cases b <;> simp_all [F64.lt, F64.le, F64.isNaN]

/-- Helper: away from NaN, `ValidateCoordinates` accepts exactly the closed box. -/
theorem ValidateCoordinates_eq_none_iff (lat lng : F64)
    (hlat : lat.isNaN = false) (hlng : lng.isNaN = false) :
    ValidateCoordinates lat lng = none ↔ inBox lat lng := by
  have h1 := F64.lt_eq_false_iff lat (F64.fin (-90)) hlat rfl
  have h2 := F64.lt_eq_false_iff (F64.fin 90) lat rfl hlat
  have h3 := F64.lt_eq_false_iff lng (F64.fin (-180)) hlng rfl
  have h4 := F64.lt_eq_false_iff (F64.fin 180) lng rfl hlng
  unfold ValidateCoordinates inBox F64.gt
  rw [← h1, ← h2, ← h3, ← h4]
  cases F64.lt lat (F64.fin (-90)) <;> cases F64.lt (F64.fin 90) lat <;>
    cases F64.lt lng (F64.fin (-180)) <;> cases F64.lt (F64.fin 180) lng <;> simp

/-- C1 (code at the failing input): with a NaN latitude `ValidateCoordinates`
returns the nil error, although NaN is not inside `[-90, 90]`; the same holds
for a NaN longitude. -/
theorem ValidateCoordinates_nan_accepted :
    ValidateCoordinates F64.nan (F64.fin 0) = none ∧ ¬ inBox F64.nan (F64.fin 0) ∧
    ValidateCoordinates (F64.fin 0) F64.nan = none ∧ ¬ inBox (F64.fin 0) F64.nan := by
  refine ⟨?_, ?_, ?_, ?_⟩ <;> simp [ValidateCoordinates, inBox, F64.lt, F64.gt, F64.le]

/-! ### CreateLocation -/

/-- C2 (counterexample): the service's `CreateLocation` does not validate
coordinates. A request with latitude 91, which `ValidateCoordinates` rejects,
is created on the empty list store: no error is returned, the store's `Create`
is invoked and the out-of-range Location is stored. -/
theorem CreateLocation_accepts_latitude_91 :
    ValidateCoordinates (F64.fin 91) (F64.fin 0) =
        some (.ValidationError "latitude" "must be between -90 and 90") ∧
    (listService.CreateLocation ⟨"p", F64.fin 91, F64.fin 0⟩ []).result =
        (some ⟨1, "p", F64.fin 91, F64.fin 0, 0, 0⟩, none) ∧
    (listService.CreateLocation ⟨"p", F64.fin 91, F64.fin 0⟩ []).state =
        [⟨1, "p", F64.fin 91, F64.fin 0, 0, 0⟩] ∧
    (listService.CreateLocation ⟨"p", F64.fin 91, F64.fin 0⟩ []).calls =
        [.NameExists "p", .Create ⟨0, "p", F64.fin 91, F64.fin 0, 0, 0⟩] := by
  refine ⟨?_, ?_, ?_, ?_⟩
  · norm_num [ValidateCoordinates, F64.lt, F64.gt]
  · simp [listService, NewLocationService, LocationService.CreateLocation, listStore]
  · simp [listService, NewLocationService, LocationService.CreateLocation, listStore]
  · simp [listService, NewLocationService, LocationService.CreateLocation, listStore]

/-- Helper: when a coordinate is out of range, `ValidateCoordinates` returns a
`ValidationError`. -/
theorem ValidateCoordinates_out_of_range (lat lng : F64)
    (h : F64.lt lat (F64.fin (-90)) = true ∨ F64.gt lat (F64.fin 90) = true ∨
         F64.lt lng (F64.fin (-180)) = true ∨ F64.gt lng (F64.fin 180) = true) :
    ∃ field message,
      ValidateCoordinates lat lng = some (.ValidationError field message) := by
  unfold ValidateCoordinates
  by_cases h1 : (F64.lt lat (F64.fin (-90)) || F64.gt lat (F64.fin 90)) = true
  · exact ⟨_, _, by rw [if_pos h1]⟩
  · have h2 : (F64.lt lng (F64.fin (-180)) || F64.gt lng (F64.fin 180)) = true := by
      simp only [Bool.or_eq_true, not_or] at h1 ⊢
      rcases h with h | h | h | h
      · exact absurd h h1.1
      · exact absurd h h1.2
      · exact Or.inl h
      · exact Or.inr h
    exact ⟨_, _, by rw [if_neg h1, if_pos h2]⟩

/-- Helper: `a < b` excludes `b <= a`. -/
theorem F64.le_eq_false_of_lt (a b : F64) (h : F64.lt a b = true) :
    F64.le b a = false := by
  cases a <;> cases b <;> simp_all [F64.lt, F64.le]

/-- Helper: the checks of a `required,min=lo,max=hi` float field pass only for
a value with `lo <= v` and `v <= hi`. -/
theorem validateFloatField_eq_nil (field : String) (v lo hi : F64)
    (h : validateFloatField field v lo hi = []) :
    F64.le lo v = true ∧ F64.le v hi = true := by
  unfold validateFloatField F64.ge at h
  cases h0 : F64.eq v (F64.fin 0) <;> cases h1 : F64.le lo v <;>
    cases h2 : F64.le v hi <;> simp_all

/-- Helper: a request that passes the `binding` tags has its coordinates in the
closed box of `ValidateCoordinates`. -/
theorem bindingErrors_eq_nil_inBox (req : CreateLocationRequest)
    (h : req.bindingErrors = []) : inBox req.Latitude req.Longitude := by
  unfold CreateLocationRequest.bindingErrors at h
  rw [List.append_eq_nil, List.append_eq_nil] at h
  have hlat := validateFloatField_eq_nil _ _ _ _ h.1.2
  have hlng := validateFloatField_eq_nil _ _ _ _ h.2
  exact ⟨hlat.1, hlat.2, hlng.1, hlng.2⟩

/-- Helper: a request with a coordinate out of range fails the `binding` tags. -/
theorem bindingErrors_out_of_range (req : CreateLocationRequest)
    (h : F64.lt req.Latitude (F64.fin (-90)) = true ∨
         F64.gt req.Latitude (F64.fin 90) = true ∨
         F64.lt req.Longitude (F64.fin (-180)) = true ∨
         F64.gt req.Longitude (F64.fin 180) = true) :
    req.bindingErrors ≠ [] := by
  intro hnil
  obtain ⟨h1, h2, h3, h4⟩ := bindingErrors_eq_nil_inBox req hnil
  rcases h with h | h | h | h
  · rw [F64.le_eq_false_of_lt _ _ h] at h1
    exact Bool.noConfusion h1
  · rw [F64.le_eq_false_of_lt _ _ h] at h2
    exact Bool.noConfusion h2
  · rw [F64.le_eq_false_of_lt _ _ h] at h3
    exact Bool.noConfusion h3
  · rw [F64.le_eq_false_of_lt _ _ h] at h4
    exact Bool.noConfusion h4

/-- Helper: whatever the body, the handler `CreateLocation` hands to the
store's `Create` only Locations whose coordinates are in the closed box. -/
theorem LocationController_CreateLocation_creates_in_box {σ : Type}
    (service : LocationService σ) (errorText : List FieldError → String)
    (decoded : Except String CreateLocationRequest) (st : σ) (l : Location)
    (hl : StoreCall.Create l ∈
      (LocationController.CreateLocation service errorText decoded st).calls) :
    inBox l.Latitude l.Longitude := by
  cases decoded with
  | error msg => simp [LocationController.CreateLocation, ShouldBindJSON] at hl
  | ok req =>
    cases hb : req.bindingErrors with
    | cons e es =>
      simp [LocationController.CreateLocation, ShouldBindJSON,
        DefaultValidator.ValidateStruct, hb] at hl
    | nil =>
      have hbox := bindingErrors_eq_nil_inBox req hb
      cases hv : ValidateCoordinates req.Latitude req.Longitude with
      | some err =>
        simp [LocationController.CreateLocation, ShouldBindJSON,
          DefaultValidator.ValidateStruct, hb, hv] at hl
      | none =>
        have hcalls : StoreCall.Create l ∈ (service.CreateLocation req st).calls := by
          simp only [LocationController.CreateLocation, ShouldBindJSON,
            DefaultValidator.ValidateStruct, hb, hv] at hl
          revert hl
          rcases service.CreateLocation req st with ⟨⟨created, err⟩, st1, calls⟩
          cases err with
          | none => exact id
          | some e => cases e <;> exact id
        have hloc : l.Latitude = req.Latitude ∧ l.Longitude = req.Longitude := by
          unfold LocationService.CreateLocation at hcalls
          rcases hn : service.repo.NameExists req.Name st with ⟨⟨found, err⟩, st1⟩
          rw [hn] at hcalls
          cases err with
          | some e => simp at hcalls
          | none =>
            cases found with
            | true => simp at hcalls
            | false =>
              rcases hc : service.repo.Create
                ⟨0, req.Name, req.Latitude, req.Longitude, 0, 0⟩ st1 with ⟨⟨stored, err2⟩, st2⟩
              simp only [hc] at hcalls
              cases err2 <;> simp at hcalls <;> subst hcalls <;> exact ⟨rfl, rfl⟩
        rw [hloc.1, hloc.2]
        exact hbox

/-- C2 (amended): coordinate validation happens in the HTTP handler, before the
domain service is called. For every store, every store state and every decoded
request whose latitude is below -90 or above 90, or whose longitude is below
-180 or above 180, the request fails the `binding` tags and the handler
`CreateLocation` answers 400 with the validator's error, invokes no store
method (`Create` is never invoked) and leaves the store as it was. -/
theorem LocationController_CreateLocation_rejects_out_of_range {σ : Type}
    (service : LocationService σ) (errorText : List FieldError → String)
    (req : CreateLocationRequest) (st : σ)
    (h : F64.lt req.Latitude (F64.fin (-90)) = true ∨
         F64.gt req.Latitude (F64.fin 90) = true ∨
         F64.lt req.Longitude (F64.fin (-180)) = true ∨
         F64.gt req.Longitude (F64.fin 180) = true) :
    req.bindingErrors ≠ [] ∧
    LocationController.CreateLocation service errorText (.ok req) st =
      ⟨⟨400, .error (errorText req.bindingErrors)⟩, st, []⟩ := by
  have hne := bindingErrors_out_of_range req h
  refine ⟨hne, ?_⟩
  cases hb : req.bindingErrors with
  | nil => exact absurd hb hne
  | cons e es =>
    simp [LocationController.CreateLocation, ShouldBindJSON,
      DefaultValidator.ValidateStruct, hb]

/-- Witness for C2 (amended): the body `name = "p", latitude = 91, longitude =
1` on the empty list store fails the `max` tag of `Latitude`. -/
theorem LocationController_CreateLocation_rejects_out_of_range_witness :
    (⟨"p", F64.fin 91, F64.fin 1⟩ : CreateLocationRequest).bindingErrors =
      [⟨"Latitude", "max"⟩] ∧
    LocationController.CreateLocation listService
        (fun errs => String.intercalate "; " (errs.map fun e => e.Field ++ ": " ++ e.Tag))
        (.ok ⟨"p", F64.fin 91, F64.fin 1⟩) [] =
      ⟨⟨400, .error "Latitude: max"⟩, [], []⟩ := by
  have hb : (⟨"p", F64.fin 91, F64.fin 1⟩ : CreateLocationRequest).bindingErrors =
      [⟨"Latitude", "max"⟩] := by
    norm_num [CreateLocationRequest.bindingErrors, validateFloatField, F64.eq, F64.ge, F64.le]
    decide
  have h := LocationController_CreateLocation_rejects_out_of_range listService
    (fun errs => String.intercalate "; " (errs.map fun e => e.Field ++ ": " ++ e.Tag))
    ⟨"p", F64.fin 91, F64.fin 1⟩ []
    (Or.inr (Or.inl (by norm_num [F64.gt, F64.lt])))
  refine ⟨hb, ?_⟩
  rw [h.2, hb]
  rfl

/-- C3: when the store's `NameExists` reports the request's name as present,
without error, `CreateLocation` returns no Location and a `DuplicateNameError`
carrying exactly the request's name; `NameExists` is the only store method
invoked (`Create` is not), and the store is in the state `NameExists` left. -/
theorem CreateLocation_duplicate_name {σ : Type} (s : LocationService σ)
    (req : CreateLocationRequest) (st st1 : σ)
    (h : s.repo.NameExists req.Name st = ((true, none), st1)) :
    (s.CreateLocation req st).result = (none, some (.DuplicateNameError req.Name)) ∧
    (s.CreateLocation req st).calls = [.NameExists req.Name] ∧
    (∀ l, StoreCall.Create l ∉ (s.CreateLocation req st).calls) ∧
    (s.CreateLocation req st).state = st1 := by
  simp [LocationService.CreateLocation, h]

/-- Witness for C3: a second "a" on the list store holding "a"; the store
keeps its contents. -/
theorem CreateLocation_duplicate_name_witness :
    (listService.CreateLocation ⟨"a", F64.fin 1, F64.fin 2⟩
        [⟨1, "a", F64.fin 0, F64.fin 0, 0, 0⟩]).result =
      (none, some (.DuplicateNameError "a")) ∧
    (listService.CreateLocation ⟨"a", F64.fin 1, F64.fin 2⟩
        [⟨1, "a", F64.fin 0, F64.fin 0, 0, 0⟩]).calls = [.NameExists "a"] ∧
    (∀ l, StoreCall.Create l ∉ (listService.CreateLocation ⟨"a", F64.fin 1, F64.fin 2⟩
        [⟨1, "a", F64.fin 0, F64.fin 0, 0, 0⟩]).calls) ∧
    (listService.CreateLocation ⟨"a", F64.fin 1, F64.fin 2⟩
        [⟨1, "a", F64.fin 0, F64.fin 0, 0, 0⟩]).state =
      [⟨1, "a", F64.fin 0, F64.fin 0, 0, 0⟩] :=
  CreateLocation_duplicate_name listService ⟨"a", F64.fin 1, F64.fin 2⟩
    [⟨1, "a", F64.fin 0, F64.fin 0, 0, 0⟩] [⟨1, "a", F64.fin 0, F64.fin 0, 0, 0⟩]
    (by simp [listService, NewLocationService, listStore])

/-- Helper: on the list store, `CreateLocation` with a stored name returns the
`DuplicateNameError` and leaves the list as it was. -/
theorem CreateLocation_listStore_duplicate (c : DistanceCalculator)
    (req : CreateLocationRequest) (st : List Location)
    (hname : ∃ l ∈ st, l.Name = req.Name) :
    (NewLocationService listStore c).CreateLocation req st =
      ⟨(none, some (.DuplicateNameError req.Name)), st, [.NameExists req.Name]⟩ := by
  have hany : (st.any fun l => l.Name == req.Name) = true := by
    obtain ⟨l, hl, hn⟩ := hname
    exact List.any_eq_true.mpr ⟨l, hl, by simpa using hn⟩
  simp [NewLocationService, LocationService.CreateLocation, listStore, hany]

/-- Helper: `CreateLocation` on the list store, for a name that is not stored. -/
theorem CreateLocation_listStore_fresh (c : DistanceCalculator)
    (req : CreateLocationRequest) (st : List Location)
    (hname : ∀ l ∈ st, l.Name ≠ req.Name) :
    (NewLocationService listStore c).CreateLocation req st =
      ⟨(some ⟨(st.map (·.ID)).foldl max 0 + 1, req.Name, req.Latitude, req.Longitude, 0, 0⟩,
          none),
        st ++ [⟨(st.map (·.ID)).foldl max 0 + 1, req.Name, req.Latitude, req.Longitude, 0, 0⟩],
        [.NameExists req.Name, .Create ⟨0, req.Name, req.Latitude, req.Longitude, 0, 0⟩]⟩ := by
  have hany : (st.any fun l => l.Name == req.Name) = false := by
    rw [Bool.eq_false_iff]
    intro hc
    obtain ⟨l, hl, hn⟩ := List.any_eq_true.mp hc
    exact hname l hl (by simpa using hn)
  simp [NewLocationService, LocationService.CreateLocation, listStore, hany]

/-- C4: on the list store, a request with in-range coordinates and a name that
is not stored succeeds; the store afterwards is the old one followed by the
returned Location, so it holds exactly one more, and the returned Location
carries the request's name, latitude and longitude. -/
theorem CreateLocation_success (c : DistanceCalculator)
    (req : CreateLocationRequest) (st : List Location)
    (_hbox : inBox req.Latitude req.Longitude)
    (hname : ∀ l ∈ st, l.Name ≠ req.Name) :
    ∃ stored,
      ((NewLocationService listStore c).CreateLocation req st).result =
        (some stored, none) ∧
      ((NewLocationService listStore c).CreateLocation req st).state = st ++ [stored] ∧
      ((NewLocationService listStore c).CreateLocation req st).state.length =
        st.length + 1 ∧
      stored.Name = req.Name ∧ stored.Latitude = req.Latitude ∧
      stored.Longitude = req.Longitude := by
  rw [CreateLocation_listStore_fresh c req st hname]
  exact ⟨_, rfl, rfl, by simp, rfl, rfl, rfl⟩

/-- Witness for C4: "b" at (10, 20) added to the list store holding "a". -/
theorem CreateLocation_success_witness :
    inBox (F64.fin 10) (F64.fin 20) ∧
    ∃ stored,
      (listService.CreateLocation ⟨"b", F64.fin 10, F64.fin 20⟩
          [⟨1, "a", F64.fin 0, F64.fin 0, 0, 0⟩]).result = (some stored, none) ∧
      (listService.CreateLocation ⟨"b", F64.fin 10, F64.fin 20⟩
          [⟨1, "a", F64.fin 0, F64.fin 0, 0, 0⟩]).state =
        [⟨1, "a", F64.fin 0, F64.fin 0, 0, 0⟩] ++ [stored] ∧
      (listService.CreateLocation ⟨"b", F64.fin 10, F64.fin 20⟩
          [⟨1, "a", F64.fin 0, F64.fin 0, 0, 0⟩]).state.length = 1 + 1 ∧
      stored.Name = "b" ∧ stored.Latitude = F64.fin 10 ∧
      stored.Longitude = F64.fin 20 :=
  ⟨by norm_num [inBox, F64.le],
   CreateLocation_success { math := ratMath } ⟨"b", F64.fin 10, F64.fin 20⟩
    [⟨1, "a", F64.fin 0, F64.fin 0, 0, 0⟩] (by norm_num [inBox, F64.le])
    (by simp)⟩

/-! ### FindNearestLocation: the empty store and validation -/

/-- C5: when the store's `GetAll` succeeds with an empty sequence,
`FindNearestLocation` returns no Location, distance 0 and a `NoLocationsError`;
when it succeeds with a non-empty sequence, `FindNearestLocation` returns the
nil error. -/
theorem FindNearestLocation_empty_or_not {σ : Type} (s : LocationService σ)
    (lat lng : F64) (st st1 : σ) (locations : List Location)
    (h : s.repo.GetAll st = ((locations, none), st1)) :
    (locations = [] →
      (s.FindNearestLocation lat lng st).result =
        (none, F64.fin 0, some .NoLocationsError)) ∧
    (locations ≠ [] → (s.FindNearestLocation lat lng st).result.2.2 = none) := by
  constructor
  · intro he
    subst he
    simp [LocationService.FindNearestLocation, h]
  · intro hne
    have hlen : ¬ locations.length = 0 := by
      intro h0
      exact hne (List.length_eq_zero.mp h0)
    simp [LocationService.FindNearestLocation, h, hlen]

/-- Witness for C5: the empty list store, and the list store holding "a". -/
theorem FindNearestLocation_empty_or_not_witness :
    (listService.FindNearestLocation (F64.fin 1) (F64.fin 2) []).result =
      (none, F64.fin 0, some .NoLocationsError) ∧
    (listService.FindNearestLocation (F64.fin 1) (F64.fin 2)
      [⟨1, "a", F64.fin 0, F64.fin 0, 0, 0⟩]).result.2.2 = none :=
  ⟨(FindNearestLocation_empty_or_not listService (F64.fin 1) (F64.fin 2) [] [] []
      (by simp [listService, NewLocationService, listStore])).1 rfl,
   (FindNearestLocation_empty_or_not listService (F64.fin 1) (F64.fin 2)
      [⟨1, "a", F64.fin 0, F64.fin 0, 0, 0⟩] [⟨1, "a", F64.fin 0, F64.fin 0, 0, 0⟩]
      [⟨1, "a", F64.fin 0, F64.fin 0, 0, 0⟩]
      (by simp [listService, NewLocationService, listStore])).2 (by simp)⟩

/-- C8 (counterexample): the service's `FindNearestLocation` does not validate
the query. With latitude 91, which `ValidateCoordinates` rejects, it fetches
from the store all the same: on the empty list store it returns a
`NoLocationsError`, and on a store holding one Location it returns that
Location with the nil error. -/
theorem FindNearestLocation_accepts_latitude_91 :
    ValidateCoordinates (F64.fin 91) (F64.fin 0) =
        some (.ValidationError "latitude" "must be between -90 and 90") ∧
    (listService.FindNearestLocation (F64.fin 91) (F64.fin 0) []).result =
        (none, F64.fin 0, some .NoLocationsError) ∧
    (listService.FindNearestLocation (F64.fin 91) (F64.fin 0) []).calls = [.GetAll] ∧
    (listService.FindNearestLocation (F64.fin 91) (F64.fin 0)
        [⟨1, "a", F64.fin 0, F64.fin 0, 0, 0⟩]).result.1 =
      some ⟨1, "a", F64.fin 0, F64.fin 0, 0, 0⟩ ∧
    (listService.FindNearestLocation (F64.fin 91) (F64.fin 0)
        [⟨1, "a", F64.fin 0, F64.fin 0, 0, 0⟩]).result.2.2 = none := by
  refine ⟨?_, ?_, ?_, ?_, ?_⟩
  · norm_num [ValidateCoordinates, F64.lt, F64.gt]
  · simp [listService, NewLocationService, LocationService.FindNearestLocation, listStore]
  · simp [listService, NewLocationService, LocationService.FindNearestLocation, listStore]
  · simp [listService, NewLocationService, LocationService.FindNearestLocation, listStore,
      nearestLoop]
  · simp [listService, NewLocationService, LocationService.FindNearestLocation, listStore]

/-- C8 (amended): the query is validated in the HTTP handler, before the domain
service is called. For every store and store state (empty or not), when the
query parameters are present and parse to a latitude below -90 or above 90, or
to a longitude below -180 or above 180, the handler `GetNearest` answers 400
with the message of the `ValidationError`, invokes no store method (nothing is
fetched) and leaves the store as it was. -/
theorem LocationController_GetNearest_rejects_out_of_range {σ : Type}
    (service : LocationService σ) (ParseFloat : String → Option F64)
    (latStr lngStr : String) (lat lng : F64) (st : σ)
    (hlatStr : latStr ≠ "") (hlngStr : lngStr ≠ "")
    (hlat : ParseFloat latStr = some lat) (hlng : ParseFloat lngStr = some lng)
    (h : F64.lt lat (F64.fin (-90)) = true ∨ F64.gt lat (F64.fin 90) = true ∨
         F64.lt lng (F64.fin (-180)) = true ∨ F64.gt lng (F64.fin 180) = true) :
    ∃ field message,
      ValidateCoordinates lat lng = some (.ValidationError field message) ∧
      LocationController.GetNearest service ParseFloat latStr lngStr st =
        ⟨⟨400, .error (field ++ ": " ++ message)⟩, st, []⟩ := by
  obtain ⟨field, message, hv⟩ := ValidateCoordinates_out_of_range _ _ h
  refine ⟨field, message, hv, ?_⟩
  simp [LocationController.GetNearest, hlatStr, hlngStr, hlat, hlng, hv, Error.Error]

/-- Witness for C8 (amended): `lat=91&lng=0` against the list store holding
"a", with a parser that knows these two strings. -/
theorem LocationController_GetNearest_rejects_out_of_range_witness :
    ∃ field message,
      ValidateCoordinates (F64.fin 91) (F64.fin 0) =
        some (.ValidationError field message) ∧
      LocationController.GetNearest listService
          (fun t => if t = "91" then some (F64.fin 91)
            else if t = "0" then some (F64.fin 0) else none)
          "91" "0" [⟨1, "a", F64.fin 0, F64.fin 0, 0, 0⟩] =
        ⟨⟨400, .error (field ++ ": " ++ message)⟩,
          [⟨1, "a", F64.fin 0, F64.fin 0, 0, 0⟩], []⟩ :=
  LocationController_GetNearest_rejects_out_of_range listService _ "91" "0"
    (F64.fin 91) (F64.fin 0) [⟨1, "a", F64.fin 0, F64.fin 0, 0, 0⟩]
    (by decide) (by decide) (by simp) (by simp)
    (Or.inr (Or.inl (by norm_num [F64.gt, F64.lt])))

/-! ### DeleteLocationByName -/

/-- C9: `DeleteLocationByName` invokes the store's `DeleteByName` exactly when
the store's `GetByName` returned the nil error. In that case it applies
`DeleteByName` to the state `GetByName` left and returns its error and its
state. When `GetByName` returns an error, `DeleteLocationByName` returns that
very error, `GetByName` is the only store method invoked, and the store is in
the state `GetByName` left. -/
theorem DeleteLocationByName_checks_first {σ : Type} (s : LocationService σ)
    (name : String) (st st1 : σ) (found : Option Location) (err : Option Error)
    (h : s.repo.GetByName name st = ((found, err), st1)) :
    (∀ n, StoreCall.DeleteByName n ∈ (s.DeleteLocationByName name st).calls ↔
      (n = name ∧ err = none)) ∧
    (err = none →
      (s.DeleteLocationByName name st).result = (s.repo.DeleteByName name st1).1 ∧
      (s.DeleteLocationByName name st).state = (s.repo.DeleteByName name st1).2 ∧
      (s.DeleteLocationByName name st).calls = [.GetByName name, .DeleteByName name]) ∧
    (∀ e, err = some e →
      (s.DeleteLocationByName name st).result = some e ∧
      (s.DeleteLocationByName name st).calls = [.GetByName name] ∧
      (s.DeleteLocationByName name st).state = st1) := by
  cases err with
  | none => simp [LocationService.DeleteLocationByName, h]
  | some e => simp [LocationService.DeleteLocationByName, h]

/-- Witness for C9: on the list store holding "a", deleting the absent "b"
returns `ErrRecordNotFound`, calls `GetByName` only and keeps the store;
deleting "a" calls `GetByName` and `DeleteByName`, returns the nil error and
leaves the store empty. -/
theorem DeleteLocationByName_checks_first_witness :
    ((listService.DeleteLocationByName "b"
        [⟨1, "a", F64.fin 0, F64.fin 0, 0, 0⟩]).result = some .ErrRecordNotFound ∧
      (listService.DeleteLocationByName "b"
        [⟨1, "a", F64.fin 0, F64.fin 0, 0, 0⟩]).calls = [.GetByName "b"] ∧
      (listService.DeleteLocationByName "b"
        [⟨1, "a", F64.fin 0, F64.fin 0, 0, 0⟩]).state =
        [⟨1, "a", F64.fin 0, F64.fin 0, 0, 0⟩]) ∧
    ((listService.DeleteLocationByName "a"
        [⟨1, "a", F64.fin 0, F64.fin 0, 0, 0⟩]).result = none ∧
      (listService.DeleteLocationByName "a"
        [⟨1, "a", F64.fin 0, F64.fin 0, 0, 0⟩]).state = [] ∧
      (listService.DeleteLocationByName "a"
        [⟨1, "a", F64.fin 0, F64.fin 0, 0, 0⟩]).calls =
        [.GetByName "a", .DeleteByName "a"]) := by
  have habsent := (DeleteLocationByName_checks_first listService "b"
    [⟨1, "a", F64.fin 0, F64.fin 0, 0, 0⟩] [⟨1, "a", F64.fin 0, F64.fin 0, 0, 0⟩]
    none (some .ErrRecordNotFound)
    (by simp [listService, NewLocationService, listStore])).2.2 _ rfl
  have hpresent := (DeleteLocationByName_checks_first listService "a"
    [⟨1, "a", F64.fin 0, F64.fin 0, 0, 0⟩] [⟨1, "a", F64.fin 0, F64.fin 0, 0, 0⟩]
    (some ⟨1, "a", F64.fin 0, F64.fin 0, 0, 0⟩) none
    (by simp [listService, NewLocationService, listStore])).2.1 rfl
  refine ⟨habsent, ?_, ?_, hpresent.2.2⟩
  · rw [hpresent.1]
    rfl
  · rw [hpresent.2.1]
    simp [listService, NewLocationService, listStore]

/-- Helper: on the list store, `DeleteLocationByName` of a name that is not
stored returns `ErrRecordNotFound`, invokes `GetByName` only and leaves the
list as it was. -/
theorem DeleteLocationByName_listStore_absent (c : DistanceCalculator)
    (name : String) (st : List Location) (hname : ∀ l ∈ st, l.Name ≠ name) :
    (NewLocationService listStore c).DeleteLocationByName name st =
      ⟨some .ErrRecordNotFound, st, [.GetByName name]⟩ := by
  have hf : st.find? (fun l => l.Name == name) = none := by
    rw [List.find?_eq_none]
    intro l hl
    simpa using hname l hl
  simp [NewLocationService, LocationService.DeleteLocationByName, listStore, hf]

/-! ### Unique names -/

/-- Helper: the state `DeleteLocationByName` leaves on the list store is a
sublist of the state before. -/
theorem DeleteLocationByName_listStore_sublist (c : DistanceCalculator)
    (name : String) (st : List Location) :
    ((NewLocationService listStore c).DeleteLocationByName name st).state.Sublist st := by
  cases hf : st.find? (fun l => l.Name == name) with
  | none =>
    simp [NewLocationService, LocationService.DeleteLocationByName, listStore, hf]
  | some l =>
    simp [NewLocationService, LocationService.DeleteLocationByName, listStore, hf]

/-- Helper: `CreateLocation` on the list store keeps stored names pairwise
distinct. -/
theorem CreateLocation_listStore_nodup (c : DistanceCalculator)
    (req : CreateLocationRequest) (st : List Location)
    (hst : (st.map (·.Name)).Nodup) :
    ((((NewLocationService listStore c).CreateLocation req st).state).map (·.Name)).Nodup := by
  by_cases hname : ∀ l ∈ st, l.Name ≠ req.Name
  · rw [CreateLocation_listStore_fresh c req st hname]
    simp only [List.map_append, List.map_cons, List.map_nil]
    rw [List.nodup_append]
    refine ⟨hst, List.nodup_singleton _, ?_⟩
    intro a ha hb
    rw [List.mem_singleton] at hb
    subst hb
    obtain ⟨l, hl, hn⟩ := List.mem_map.mp ha
    exact hname l hl hn
  · have hany : (st.any fun l => l.Name == req.Name) = true := by
      push_neg at hname
      obtain ⟨l, hl, hn⟩ := hname
      exact List.any_eq_true.mpr ⟨l, hl, by simpa using hn⟩
    simpa [NewLocationService, LocationService.CreateLocation, listStore, hany] using hst

/-- C10: on the list store, starting from pairwise distinct names, every finite
sequence of `CreateLocation` and `DeleteLocationByName` calls, whatever each
call returns, leaves the stored names pairwise distinct. -/
theorem runCalls_names_nodup (c : DistanceCalculator) (cs : List ServiceCall)
    (st : List Location) (hst : (st.map (·.Name)).Nodup) :
    ((runCalls (NewLocationService listStore c) st cs).map (·.Name)).Nodup := by
  induction cs generalizing st with
  | nil => simpa [runCalls] using hst
  | cons call rest ih =>
    have hstep : ((ServiceCall.run (NewLocationService listStore c) st call).map
        (·.Name)).Nodup := by
      cases call with
      | CreateLocation req => exact CreateLocation_listStore_nodup c req st hst
      | DeleteLocationByName name =>
        exact List.Nodup.sublist
          ((DeleteLocationByName_listStore_sublist c name st).map _) hst
    simpa [runCalls] using ih _ hstep

/-- Witness for C10: create "a", create "a" again (refused), create "b",
delete "a", delete "a" again (not found), from the empty list store. -/
theorem runCalls_names_nodup_witness :
    (([] : List Location).map (·.Name)).Nodup ∧
    ((runCalls (NewLocationService listStore { math := ratMath }) []
      [.CreateLocation ⟨"a", F64.fin 1, F64.fin 2⟩,
       .CreateLocation ⟨"a", F64.fin 3, F64.fin 4⟩,
       .CreateLocation ⟨"b", F64.fin 5, F64.fin 6⟩,
       .DeleteLocationByName "a",
       .DeleteLocationByName "a"]).map (·.Name)).Nodup :=
  ⟨by simp, runCalls_names_nodup { math := ratMath } _ [] (by simp)⟩

/-! ### FindNearestLocation: the scan -/

/-- Helper: `a < a` is false. -/
theorem F64.lt_irrefl (a : F64) : F64.lt a a = false := by
  cases a <;> simp [F64.lt]

/-- Helper: operands of a true `<` are not NaN. -/
theorem F64.not_nan_of_lt (a b : F64) (h : F64.lt a b = true) :
    a.isNaN = false ∧ b.isNaN = false := by
  cases a <;> cases b <;> simp_all [F64.lt, F64.isNaN]

/-- Helper: `<` is transitive. -/
theorem F64.lt_trans (a b c : F64) (hab : F64.lt a b = true) (hbc : F64.lt b c = true) :
    F64.lt a c = true := by
  cases a <;> cases b <;> cases c <;> simp_all [F64.lt] <;> linarith

/-- Helper: `a <= b` and `b < c` give `a < c`. -/
theorem F64.lt_of_le_of_lt (a b c : F64) (hab : F64.le a b = true)
    (hbc : F64.lt b c = true) : F64.lt a c = true := by
  cases a <;> cases b <;> cases c <;> simp_all [F64.lt, F64.le] <;> linarith

/-- Helper: on operands that are not NaN, `a <= b` is false exactly when `b < a`. -/
theorem F64.le_eq_false_iff (a b : F64) (ha : a.isNaN = false) (hb : b.isNaN = false) :
    F64.le a b = false ↔ F64.lt b a = true := by
  cases a <;> cases b <;> simp_all [F64.lt, F64.le, F64.isNaN]

/-- Helper: the scan from index `pre.length` on, entered with the pointer at
index `w` of the part `pre` already seen and the distance of that Location as
the minimum. It ends with the pointer at an index `w1` of the whole slice and
that Location's distance, such that no Location is strictly nearer, no
Location before `w1` has a distance `<=` the final one, and the final distance
is not NaN unless `w1 = 0`. -/
theorem nearestLoop_spec (dc : DistanceCalculator) (lat lng : F64)
    (locs : List Location) :
    ∀ (rest pre : List Location) (w : Nat) (L : Location),
      locs = pre ++ rest → pre[w]? = some L →
      (∀ M ∈ pre, F64.lt (distanceTo dc lat lng M) (distanceTo dc lat lng L) = false) →
      (∀ j M, j < w → pre[j]? = some M →
        F64.le (distanceTo dc lat lng M) (distanceTo dc lat lng L) = false) →
      (0 < w → (distanceTo dc lat lng L).isNaN = false) →
      ∃ w1 L1,
        nearestLoop dc lat lng rest pre.length (some w) (distanceTo dc lat lng L) =
          (some w1, distanceTo dc lat lng L1) ∧
        locs[w1]? = some L1 ∧
        (∀ M ∈ locs, F64.lt (distanceTo dc lat lng M) (distanceTo dc lat lng L1) = false) ∧
        (∀ j M, j < w1 → locs[j]? = some M →
          F64.le (distanceTo dc lat lng M) (distanceTo dc lat lng L1) = false) ∧
        (0 < w1 → (distanceTo dc lat lng L1).isNaN = false) := by
  intro rest
  induction rest with
  | nil =>
    intro pre w L hlocs hw hmin hbefore hnan
    rw [List.append_nil] at hlocs
    subst hlocs
    exact ⟨w, L, by simp [nearestLoop], hw, hmin, hbefore, hnan⟩
  | cons x rest ih =>
    intro pre w L hlocs hw hmin hbefore hnan
    have hwlt : w < pre.length := by
      by_contra hge
      rw [List.getElem?_eq_none (Nat.le_of_not_lt hge)] at hw
      exact Option.noConfusion hw
    have hpos : (pre.length == 0) = false := by
      simp only [beq_eq_false_iff_ne]
      omega
    have hlocs1 : locs = (pre ++ [x]) ++ rest := by
      rw [hlocs, List.append_assoc, List.singleton_append]
    have hlen : (pre ++ [x]).length = pre.length + 1 := by simp
    have hmemL : L ∈ pre := List.getElem?_mem hw
    cases hlt : F64.lt (distanceTo dc lat lng x) (distanceTo dc lat lng L) with
    | true =>
      have hx : (pre ++ [x])[pre.length]? = some x := by simp
      have hstep := ih (pre ++ [x]) pre.length x hlocs1 hx
        (by
          intro M hM
          rcases List.mem_append.mp hM with hM | hM
          · by_contra hc
            have hc1 : F64.lt (distanceTo dc lat lng M) (distanceTo dc lat lng x) = true := by
              simpa using hc
            have := F64.lt_trans _ _ _ hc1 hlt
            rw [hmin M hM] at this
            exact Bool.noConfusion this
          · rw [List.mem_singleton] at hM
            subst hM
            exact F64.lt_irrefl _)
        (by
          intro j M hj hjM
          rw [List.getElem?_append_left hj] at hjM
          by_contra hc
          have hc1 : F64.le (distanceTo dc lat lng M) (distanceTo dc lat lng x) = true := by
            simpa using hc
          have hM : M ∈ pre := List.getElem?_mem hjM
          have := F64.lt_of_le_of_lt _ _ _ hc1 hlt
          rw [hmin M hM] at this
          exact Bool.noConfusion this)
        (fun _ => (F64.not_nan_of_lt _ _ hlt).1)
      rw [hlen] at hstep
      simpa [nearestLoop, hpos, hlt, distanceTo] using hstep
    | false =>
      have hL : (pre ++ [x])[w]? = some L := by
        rw [List.getElem?_append_left hwlt]
        exact hw
      have hstep := ih (pre ++ [x]) w L hlocs1 hL
        (by
          intro M hM
          rcases List.mem_append.mp hM with hM | hM
          · exact hmin M hM
          · rw [List.mem_singleton] at hM
            subst hM
            exact hlt)
        (by
          intro j M hj hjM
          rw [List.getElem?_append_left (Nat.lt_trans hj hwlt)] at hjM
          exact hbefore j M hj hjM)
        hnan
      rw [hlen] at hstep
      simpa [nearestLoop, hpos, hlt, distanceTo] using hstep

/-- Helper: on a non-empty sequence from `GetAll`, `FindNearestLocation` returns
the Location at some index `w` with its distance and the nil error; no stored
Location is strictly nearer, no Location before `w` has a distance `<=` the
returned one, and the returned distance is not NaN unless `w = 0`. -/
theorem FindNearestLocation_scan {σ : Type} (s : LocationService σ)
    (lat lng : F64) (st st1 : σ) (locations : List Location)
    (h : s.repo.GetAll st = ((locations, none), st1)) (hne : locations ≠ []) :
    ∃ w L, locations[w]? = some L ∧
      (s.FindNearestLocation lat lng st).result =
        (some L, distanceTo s.Calculator lat lng L, none) ∧
      (∀ M ∈ locations, F64.lt (distanceTo s.Calculator lat lng M)
        (distanceTo s.Calculator lat lng L) = false) ∧
      (∀ j M, j < w → locations[j]? = some M →
        F64.le (distanceTo s.Calculator lat lng M)
          (distanceTo s.Calculator lat lng L) = false) ∧
      (0 < w → (distanceTo s.Calculator lat lng L).isNaN = false) := by
  cases locations with
  | nil => exact absurd rfl hne
  | cons x rest =>
    obtain ⟨w, L, hloop, hw, hmin, hbefore, hnan⟩ :=
      nearestLoop_spec s.Calculator lat lng (x :: rest) rest [x] 0 x rfl rfl
        (by
          intro M hM
          rw [List.mem_singleton] at hM
          subst hM
          exact F64.lt_irrefl _)
        (by
          intro j M hj
          exact absurd hj (Nat.not_lt_zero j))
        (fun h0 => absurd h0 (Nat.lt_irrefl 0))
    have hfirst : nearestLoop s.Calculator lat lng (x :: rest) 0 none (F64.fin 0) =
        (some w, distanceTo s.Calculator lat lng L) := by
      rw [← hloop]
      simp [nearestLoop, distanceTo]
    refine ⟨w, L, hw, ?_, hmin, hbefore, hnan⟩
    simp [LocationService.FindNearestLocation, h, hfirst, hw]

/-- C6: for a non-empty sequence of stored Locations none of whose distances
to the query is NaN, `FindNearestLocation` returns a Location `L` of the
sequence and a distance `d` with `d = HaversineDistance(lat, lng, L.Latitude,
L.Longitude)` and `d <= HaversineDistance(lat, lng, M.Latitude, M.Longitude)`
for every stored Location `M`. -/
theorem FindNearestLocation_minimal {σ : Type} (s : LocationService σ)
    (lat lng : F64) (st st1 : σ) (locations : List Location)
    (h : s.repo.GetAll st = ((locations, none), st1)) (hne : locations ≠ [])
    (hnan : ∀ M ∈ locations,
      (s.Calculator.HaversineDistance lat lng M.Latitude M.Longitude).isNaN = false) :
    ∃ L d, (s.FindNearestLocation lat lng st).result = (some L, d, none) ∧
      L ∈ locations ∧
      d = s.Calculator.HaversineDistance lat lng L.Latitude L.Longitude ∧
      ∀ M ∈ locations,
        F64.le d (s.Calculator.HaversineDistance lat lng M.Latitude M.Longitude) = true := by
  obtain ⟨w, L, hw, hres, hmin, _, _⟩ := FindNearestLocation_scan s lat lng st st1 locations h hne
  have hL : L ∈ locations := List.getElem?_mem hw
  refine ⟨L, _, hres, hL, rfl, ?_⟩
  intro M hM
  exact (F64.lt_eq_false_iff _ _ (hnan M hM) (hnan L hL)).mp (hmin M hM)

/-- Witness for C6: query (0, 0) against the list store holding Locations at
latitude 2 and latitude 1. -/
theorem FindNearestLocation_minimal_witness :
    ∃ L d, (listService.FindNearestLocation (F64.fin 0) (F64.fin 0)
        [⟨1, "a", F64.fin 2, F64.fin 0, 0, 0⟩, ⟨2, "b", F64.fin 1, F64.fin 0, 0, 0⟩]).result =
        (some L, d, none) ∧
      L ∈ [(⟨1, "a", F64.fin 2, F64.fin 0, 0, 0⟩ : Location),
        ⟨2, "b", F64.fin 1, F64.fin 0, 0, 0⟩] ∧
      d = listService.Calculator.HaversineDistance (F64.fin 0) (F64.fin 0)
        L.Latitude L.Longitude ∧
      ∀ M ∈ [(⟨1, "a", F64.fin 2, F64.fin 0, 0, 0⟩ : Location),
          ⟨2, "b", F64.fin 1, F64.fin 0, 0, 0⟩],
        F64.le d (listService.Calculator.HaversineDistance (F64.fin 0) (F64.fin 0)
          M.Latitude M.Longitude) = true :=
  FindNearestLocation_minimal listService (F64.fin 0) (F64.fin 0)
    [⟨1, "a", F64.fin 2, F64.fin 0, 0, 0⟩, ⟨2, "b", F64.fin 1, F64.fin 0, 0, 0⟩]
    [⟨1, "a", F64.fin 2, F64.fin 0, 0, 0⟩, ⟨2, "b", F64.fin 1, F64.fin 0, 0, 0⟩]
    [⟨1, "a", F64.fin 2, F64.fin 0, 0, 0⟩, ⟨2, "b", F64.fin 1, F64.fin 0, 0, 0⟩]
    (by simp [listService, NewLocationService, listStore]) (by simp)
    (by
      intro M hM
      simp only [List.mem_cons, List.mem_singleton, List.not_mem_nil, or_false] at hM
      rcases hM with rfl | rfl <;>
        simp [listService, NewLocationService, DistanceCalculator.HaversineDistance,
          ratMath, ratOp, F64.toRat?, F64.isNaN])

/-- C7 (counterexample): query (0, 0) against the list store holding, in
order, Locations at latitude 2, latitude NaN and latitude 1. The third is
returned, with distance 6371/2; the second precedes it and its distance is NaN,
which is not strictly greater than the returned distance. A NaN latitude gives
a NaN distance in Go as in the stand-in arithmetic, every float operation on
NaN yielding NaN, and `distance < minDistance` is then false. -/
theorem FindNearestLocation_nan_predecessor :
    (listService.FindNearestLocation (F64.fin 0) (F64.fin 0)
      [⟨1, "a", F64.fin 2, F64.fin 0, 0, 0⟩, ⟨2, "b", F64.nan, F64.fin 0, 0, 0⟩,
       ⟨3, "c", F64.fin 1, F64.fin 0, 0, 0⟩]).result =
      (some ⟨3, "c", F64.fin 1, F64.fin 0, 0, 0⟩, F64.fin (6371 / 2), none) ∧
    distanceTo listService.Calculator (F64.fin 0) (F64.fin 0)
      ⟨2, "b", F64.nan, F64.fin 0, 0, 0⟩ = F64.nan ∧
    F64.gt (distanceTo listService.Calculator (F64.fin 0) (F64.fin 0)
        ⟨2, "b", F64.nan, F64.fin 0, 0, 0⟩)
      (distanceTo listService.Calculator (F64.fin 0) (F64.fin 0)
        ⟨3, "c", F64.fin 1, F64.fin 0, 0, 0⟩) = false := by
  refine ⟨?_, ?_, ?_⟩
  · norm_num [listService, NewLocationService, LocationService.FindNearestLocation, listStore,
      nearestLoop, DistanceCalculator.HaversineDistance, ratMath, ratOp, F64.toRat?,
      F64.isNaN, F64.lt]
  · simp [listService, NewLocationService, distanceTo, DistanceCalculator.HaversineDistance,
      ratMath, ratOp, F64.toRat?, F64.isNaN]
  · simp [listService, NewLocationService, distanceTo, DistanceCalculator.HaversineDistance,
      ratMath, ratOp, F64.toRat?, F64.isNaN, F64.gt, F64.lt]

/-- C7 (amended): for every query and every non-empty sequence from `GetAll`,
`FindNearestLocation` returns the Location at some index `w` of the sequence,
with its distance, such that no stored Location is strictly nearer, every
Location whose distance is `<=` the returned one sits at index `w` or later,
and every Location before `w` has a distance that is not `<=` the returned one
and, when it is not NaN, is strictly greater. -/
theorem FindNearestLocation_first_minimal {σ : Type} (s : LocationService σ)
    (lat lng : F64) (st st1 : σ) (locations : List Location)
    (h : s.repo.GetAll st = ((locations, none), st1)) (hne : locations ≠ []) :
    ∃ w L, locations[w]? = some L ∧
      (s.FindNearestLocation lat lng st).result =
        (some L, s.Calculator.HaversineDistance lat lng L.Latitude L.Longitude, none) ∧
      (∀ M ∈ locations,
        F64.lt (s.Calculator.HaversineDistance lat lng M.Latitude M.Longitude)
          (s.Calculator.HaversineDistance lat lng L.Latitude L.Longitude) = false) ∧
      (∀ (j : Nat) (M : Location), locations[j]? = some M →
        F64.le (s.Calculator.HaversineDistance lat lng M.Latitude M.Longitude)
          (s.Calculator.HaversineDistance lat lng L.Latitude L.Longitude) = true → w ≤ j) ∧
      (∀ (j : Nat) (M : Location), j < w → locations[j]? = some M →
        F64.le (s.Calculator.HaversineDistance lat lng M.Latitude M.Longitude)
          (s.Calculator.HaversineDistance lat lng L.Latitude L.Longitude) = false ∧
        ((s.Calculator.HaversineDistance lat lng M.Latitude M.Longitude).isNaN = false →
          F64.gt (s.Calculator.HaversineDistance lat lng M.Latitude M.Longitude)
            (s.Calculator.HaversineDistance lat lng L.Latitude L.Longitude) = true)) := by
  obtain ⟨w, L, hw, hres, hmin, hbefore, hnan⟩ :=
    FindNearestLocation_scan s lat lng st st1 locations h hne
  refine ⟨w, L, hw, hres, hmin, ?_, ?_⟩
  · intro j M hjM hle
    by_contra hlt
    have := hbefore j M (Nat.lt_of_not_le hlt) hjM
    simp only [distanceTo] at this
    rw [hle] at this
    exact Bool.noConfusion this
  · intro j M hj hjM
    refine ⟨hbefore j M hj hjM, ?_⟩
    intro hM
    exact (F64.le_eq_false_iff _ _ hM (hnan (Nat.lt_of_le_of_lt (Nat.zero_le j) hj))).mp
      (hbefore j M hj hjM)

/-- Witness for C7 (amended): query (0, 0) against the list store holding, in
order, Locations at latitude 2, 1 and -1, the last two at equal distance. -/
theorem FindNearestLocation_first_minimal_witness :
    ∃ w L,
      [(⟨1, "a", F64.fin 2, F64.fin 0, 0, 0⟩ : Location),
        ⟨2, "b", F64.fin 1, F64.fin 0, 0, 0⟩,
        ⟨3, "c", F64.fin (-1), F64.fin 0, 0, 0⟩][w]? = some L ∧
      (listService.FindNearestLocation (F64.fin 0) (F64.fin 0)
        [⟨1, "a", F64.fin 2, F64.fin 0, 0, 0⟩, ⟨2, "b", F64.fin 1, F64.fin 0, 0, 0⟩,
         ⟨3, "c", F64.fin (-1), F64.fin 0, 0, 0⟩]).result =
        (some L, listService.Calculator.HaversineDistance (F64.fin 0) (F64.fin 0)
          L.Latitude L.Longitude, none) ∧
      (∀ M ∈ [(⟨1, "a", F64.fin 2, F64.fin 0, 0, 0⟩ : Location),
          ⟨2, "b", F64.fin 1, F64.fin 0, 0, 0⟩,
          ⟨3, "c", F64.fin (-1), F64.fin 0, 0, 0⟩],
        F64.lt (listService.Calculator.HaversineDistance (F64.fin 0) (F64.fin 0)
            M.Latitude M.Longitude)
          (listService.Calculator.HaversineDistance (F64.fin 0) (F64.fin 0)
            L.Latitude L.Longitude) = false) ∧
      (∀ (j : Nat) (M : Location),
        [(⟨1, "a", F64.fin 2, F64.fin 0, 0, 0⟩ : Location),
          ⟨2, "b", F64.fin 1, F64.fin 0, 0, 0⟩,
          ⟨3, "c", F64.fin (-1), F64.fin 0, 0, 0⟩][j]? = some M →
        F64.le (listService.Calculator.HaversineDistance (F64.fin 0) (F64.fin 0)
            M.Latitude M.Longitude)
          (listService.Calculator.HaversineDistance (F64.fin 0) (F64.fin 0)
            L.Latitude L.Longitude) = true → w ≤ j) ∧
      (∀ (j : Nat) (M : Location), j < w →
        [(⟨1, "a", F64.fin 2, F64.fin 0, 0, 0⟩ : Location),
          ⟨2, "b", F64.fin 1, F64.fin 0, 0, 0⟩,
          ⟨3, "c", F64.fin (-1), F64.fin 0, 0, 0⟩][j]? = some M →
        F64.le (listService.Calculator.HaversineDistance (F64.fin 0) (F64.fin 0)
            M.Latitude M.Longitude)
          (listService.Calculator.HaversineDistance (F64.fin 0) (F64.fin 0)
            L.Latitude L.Longitude) = false ∧
        ((listService.Calculator.HaversineDistance (F64.fin 0) (F64.fin 0)
            M.Latitude M.Longitude).isNaN = false →
          F64.gt (listService.Calculator.HaversineDistance (F64.fin 0) (F64.fin 0)
              M.Latitude M.Longitude)
            (listService.Calculator.HaversineDistance (F64.fin 0) (F64.fin 0)
              L.Latitude L.Longitude) = true)) :=
  FindNearestLocation_first_minimal listService (F64.fin 0) (F64.fin 0)
    [⟨1, "a", F64.fin 2, F64.fin 0, 0, 0⟩, ⟨2, "b", F64.fin 1, F64.fin 0, 0, 0⟩,
     ⟨3, "c", F64.fin (-1), F64.fin 0, 0, 0⟩]
    [⟨1, "a", F64.fin 2, F64.fin 0, 0, 0⟩, ⟨2, "b", F64.fin 1, F64.fin 0, 0, 0⟩,
     ⟨3, "c", F64.fin (-1), F64.fin 0, 0, 0⟩]
    [⟨1, "a", F64.fin 2, F64.fin 0, 0, 0⟩, ⟨2, "b", F64.fin 1, F64.fin 0, 0, 0⟩,
     ⟨3, "c", F64.fin (-1), F64.fin 0, 0, 0⟩]
    (by simp [listService, NewLocationService, listStore]) (by simp)

/-- Evaluation of the tie above: of the three Locations at distances 12742,
6371/2 and 6371/2, in store order, the second is returned. -/
theorem FindNearestLocation_tie_evaluated :
    (listService.FindNearestLocation (F64.fin 0) (F64.fin 0)
      [⟨1, "a", F64.fin 2, F64.fin 0, 0, 0⟩, ⟨2, "b", F64.fin 1, F64.fin 0, 0, 0⟩,
       ⟨3, "c", F64.fin (-1), F64.fin 0, 0, 0⟩]).result =
      (some ⟨2, "b", F64.fin 1, F64.fin 0, 0, 0⟩, F64.fin (6371 / 2), none) := by
  norm_num [listService, NewLocationService, LocationService.FindNearestLocation, listStore,
    nearestLoop, DistanceCalculator.HaversineDistance, ratMath, ratOp, F64.toRat?,
    F64.isNaN, F64.lt]

/-- First-seen tie-break at distances 10, 5, 5: whatever the arithmetic, when
`GetAll` yields three Locations whose distances to the query are 10, 5 and 5,
in store order, `FindNearestLocation` returns the second with distance 5. -/
theorem FindNearestLocation_ten_five_five {σ : Type} (s : LocationService σ)
    (lat lng : F64) (st st1 : σ) (A B C : Location)
    (h : s.repo.GetAll st = (([A, B, C], none), st1))
    (hA : s.Calculator.HaversineDistance lat lng A.Latitude A.Longitude = F64.fin 10)
    (hB : s.Calculator.HaversineDistance lat lng B.Latitude B.Longitude = F64.fin 5)
    (hC : s.Calculator.HaversineDistance lat lng C.Latitude C.Longitude = F64.fin 5) :
    (s.FindNearestLocation lat lng st).result = (some B, F64.fin 5, none) := by
  norm_num [LocationService.FindNearestLocation, h, nearestLoop, hA, hB, hC, F64.lt]

/-! ### HaversineDistance: the arithmetic it rests on -/

/-- Helper: negation is an involution. -/
theorem F64.neg_neg (a : F64) : a.neg.neg = a := by
  cases a with
  | fin q =>
    by_cases hq : q = 0
    · simp [F64.neg, hq]
    · simp [F64.neg, hq]
  | _ => simp [F64.neg]

/-- Helper: `a == a` holds for every `a` that is not NaN. -/
theorem F64.eq_self (a : F64) (ha : a.isNaN = false) : F64.eq a a = true := by
  cases a <;> simp_all [F64.eq, F64.isNaN]

/-- Helper: a zero of either sign is finite. -/
theorem F64.isFinite_of_isZero (z : F64) (hz : z.isZero = true) : z.isFinite = true := by
  cases z <;> simp_all [F64.isZero, F64.isFinite]

/-- Helper: `a == 0` holds exactly for the zeros of either sign. -/
theorem F64.eq_zero_iff (a : F64) : F64.eq a (F64.fin 0) = true ↔ a.isZero = true := by
  cases a <;> simp [F64.eq, F64.isZero]

/-- Helper: a value is finite exactly when it has a rational value. -/
theorem F64.isFinite_iff (a : F64) : a.isFinite = true ↔ ∃ p, a.toRat? = some p := by
  cases a <;> simp [F64.isFinite, F64.toRat?]

/-- Helper: a zero has rational value 0. -/
theorem F64.toRat?_of_isZero (z : F64) (hz : z.isZero = true) : z.toRat? = some 0 := by
  cases z <;> simp_all [F64.isZero, F64.toRat?]

/-- Helper: `ofRat` at zero. -/
theorem F64.ofRat_zero (s : Bool) :
    F64.ofRat s 0 = if s then F64.negZero else F64.fin 0 := by
  simp [F64.ofRat]

/-- Helper: `ofRat` away from zero. -/
theorem F64.ofRat_of_ne (s : Bool) (r : ℚ) (hr : r ≠ 0) : F64.ofRat s r = F64.fin r := by
  simp [F64.ofRat, hr]

/-- Helper: `ofRat` is finite, with the rational value it was given. -/
theorem F64.toRat?_ofRat (s : Bool) (r : ℚ) : (F64.ofRat s r).toRat? = some r := by
  by_cases hr : r = 0
  · cases s <;> simp [F64.ofRat, F64.toRat?, hr]
  · simp [F64.ofRat, F64.toRat?, hr]

/-- Helper: `ofRat` of zero is a zero. -/
theorem F64.isZero_ofRat_zero (s : Bool) : (F64.ofRat s 0).isZero = true := by
  cases s <;> simp [F64.ofRat, F64.isZero]

/-- Helper: the rational value of a negation. -/
theorem F64.toRat?_neg (a : F64) : a.neg.toRat? = a.toRat?.map (fun q => -q) := by
  cases a with
  | fin q =>
    by_cases hq : q = 0
    · simp [F64.neg, F64.toRat?, hq]
    · simp [F64.neg, F64.toRat?, hq]
  | _ => simp [F64.neg, F64.toRat?]

/-- Helper: negation flips the sign bit of a finite value. -/
theorem F64.signBit_neg (a : F64) (p : ℚ) (ha : a.toRat? = some p) :
    a.neg.signBit = !a.signBit := by
  cases a with
  | fin q =>
    by_cases hq : q = 0
    · simp [F64.neg, F64.signBit, hq]
    · rcases lt_or_gt_of_ne hq with h | h
      · have h2 : ¬ (0 < q) := not_lt.mpr (le_of_lt h)
        simp [F64.neg, F64.signBit, hq, h, h2]
      · have h2 : ¬ (q < 0) := not_lt.mpr (le_of_lt h)
        simp [F64.neg, F64.signBit, hq, h, h2]
  | negZero => simp [F64.neg, F64.signBit]
  | _ => simp [F64.toRat?] at ha

/-- Helper: negation of `ofRat`. -/
theorem F64.neg_ofRat (s : Bool) (r : ℚ) : (F64.ofRat s r).neg = F64.ofRat (!s) (-r) := by
  by_cases hr : r = 0
  · cases s <;> simp [F64.ofRat, F64.neg, hr]
  · simp [F64.ofRat, F64.neg, hr]

/-- Helper: swapping the operands of `subExact`. -/
theorem F64.subExact_swap (a b : F64) :
    F64.subExact b a = (F64.subExact a b).neg ∨
      (F64.subExact a b = F64.fin 0 ∧ F64.subExact b a = F64.fin 0) := by
  unfold F64.subExact
  cases ha : a.toRat? with
  | none =>
    left
    cases hb : b.toRat? <;> simp [F64.neg]
  | some p =>
    cases hb : b.toRat? with
    | none => left; simp [F64.neg]
    | some q =>
      simp only []
      by_cases hpq : p = q
      · subst hpq
        rw [sub_self, F64.ofRat_zero, F64.ofRat_zero]
        cases a.signBit <;> cases b.signBit <;> simp [F64.neg]
      · left
        rw [F64.neg_ofRat, F64.ofRat_of_ne _ _ (sub_ne_zero.mpr (Ne.symm hpq)),
          F64.ofRat_of_ne _ _ (neg_ne_zero.mpr (sub_ne_zero.mpr hpq)), neg_sub]

/-- Helper: negation passes through `divExact`. -/
theorem F64.divExact_neg (a b : F64) : F64.divExact a.neg b = (F64.divExact a b).neg := by
  unfold F64.divExact
  cases ha : a.toRat? with
  | none =>
    have hn : a.neg.toRat? = none := by rw [F64.toRat?_neg, ha]; rfl
    rw [hn]
    simp [F64.neg]
  | some p =>
    have hn : a.neg.toRat? = some (-p) := by rw [F64.toRat?_neg, ha]; rfl
    rw [hn, F64.signBit_neg a p ha]
    cases hb : b.toRat? with
    | none => simp [F64.neg]
    | some q =>
      simp only []
      by_cases hq : q = 0
      · simp [hq, F64.neg]
      · rw [if_neg hq, if_neg hq, F64.neg_ofRat, neg_div]
        cases a.signBit <;> cases b.signBit <;> rfl

/-- Helper: `mulExact` commutes. -/
theorem F64.mulExact_comm (a b : F64) : F64.mulExact a b = F64.mulExact b a := by
  unfold F64.mulExact
  cases ha : a.toRat? <;> cases hb : b.toRat? <;> simp [mul_comm, Bool.xor_comm]

/-- Helper: negation passes through `mulExact`. -/
theorem F64.mulExact_neg (a b : F64) : F64.mulExact a b.neg = (F64.mulExact a b).neg := by
  unfold F64.mulExact
  cases hb : b.toRat? with
  | none =>
    have hn : b.neg.toRat? = none := by rw [F64.toRat?_neg, hb]; rfl
    rw [hn]
    cases ha : a.toRat? <;> simp [F64.neg]
  | some q =>
    have hn : b.neg.toRat? = some (-q) := by rw [F64.toRat?_neg, hb]; rfl
    rw [hn, F64.signBit_neg b q hb]
    cases ha : a.toRat? with
    | none => simp [F64.neg]
    | some p =>
      simp only []
      rw [F64.neg_ofRat, mul_neg]
      cases a.signBit <;> cases b.signBit <;> rfl

/-- The stand-in `signedMath` propagates NaN. -/
theorem signedMath_propagatesNaN : signedMath.PropagatesNaN := by
  constructor <;> intros <;>
    simp [signedMath, F64.addExact, F64.subExact, F64.mulExact, F64.divExact,
      F64.toRat?, F64.isNaN]

/-- The stand-in `signedMath` has the sign symmetries. -/
theorem signedMath_signSymmetric : signedMath.SignSymmetric where
  sub_swap := F64.subExact_swap
  div_neg := F64.divExact_neg
  mul_comm := F64.mulExact_comm
  mul_neg := F64.mulExact_neg
  Sin_neg := fun _ => rfl

/-- Helper: `mulExact` of a finite value and a zero is a zero. -/
theorem F64.isZero_mulExact (a z : F64) (ha : a.isFinite = true) (hz : z.isZero = true) :
    (F64.mulExact a z).isZero = true := by
  obtain ⟨p, hp⟩ := (F64.isFinite_iff a).mp ha
  unfold F64.mulExact
  rw [hp, F64.toRat?_of_isZero z hz]
  simp only [mul_zero]
  exact F64.isZero_ofRat_zero _

/-- The stand-in `signedMath` is exact at zero and one. -/
theorem signedMath_exactAtZero : signedMath.ExactAtZero where
  sub_self := by
    intro a ha
    obtain ⟨p, hp⟩ := (F64.isFinite_iff a).mp ha
    show (F64.subExact a a).isZero = true
    unfold F64.subExact
    rw [hp]
    simp only [sub_self]
    exact F64.isZero_ofRat_zero _
  div_two := by
    intro z hz
    show (F64.divExact z (F64.fin 2)).isZero = true
    unfold F64.divExact
    rw [F64.toRat?_of_isZero z hz]
    simp only [F64.toRat?, zero_div]
    rw [if_neg (by norm_num)]
    exact F64.isZero_ofRat_zero _
  Sin_zero := fun _ hz => hz
  mul_zero := F64.isZero_mulExact
  add_zero := by
    intro y z hy hz
    show (F64.addExact y z).isZero = true
    unfold F64.addExact
    rw [F64.toRat?_of_isZero y hy, F64.toRat?_of_isZero z hz]
    simp only [add_zero]
    exact F64.isZero_ofRat_zero _
  Sqrt_zero := fun _ hz => hz
  Atan2_zero_one := by
    intro z hz
    show (if (F64.fin 1).isNaN then F64.nan else z).isZero = true
    simpa [F64.isNaN] using hz
  one_sub_zero := by
    intro z hz
    show F64.subExact (F64.fin 1) z = F64.fin 1
    unfold F64.subExact
    rw [F64.toRat?_of_isZero z hz]
    simp only [F64.toRat?, sub_zero]
    exact F64.ofRat_of_ne _ _ one_ne_zero
  Sqrt_one := rfl
  Cos_mul_Cos := by
    intro a b ha hb
    obtain ⟨p, hp⟩ := (F64.isFinite_iff a).mp ha
    obtain ⟨q, hq⟩ := (F64.isFinite_iff b).mp hb
    show (F64.mulExact (match a.toRat? with
      | some _ => F64.fin 1
      | none => F64.nan) (match b.toRat? with
      | some _ => F64.fin 1
      | none => F64.nan)).isFinite = true
    rw [hp, hq]
    simp only []
    unfold F64.mulExact
    simp only [F64.toRat?]
    exact (F64.isFinite_iff _).mpr ⟨_, F64.toRat?_ofRat _ _⟩

/-- Helper: `mulExact` of finite values is finite. -/
theorem F64.isFinite_mulExact (a b : F64) (ha : a.isFinite = true) (hb : b.isFinite = true) :
    (F64.mulExact a b).isFinite = true := by
  obtain ⟨p, hp⟩ := (F64.isFinite_iff a).mp ha
  obtain ⟨q, hq⟩ := (F64.isFinite_iff b).mp hb
  unfold F64.mulExact
  rw [hp, hq]
  exact (F64.isFinite_iff _).mpr ⟨_, F64.toRat?_ofRat _ _⟩

/-- Helper: in `signedMath`, the conversion to radians of a finite value is
finite. -/
theorem signedMath_radians_finite (x : F64) (hx : x.isFinite = true) :
    (signedMath.div (signedMath.mul x signedMath.Pi) (F64.fin 180)).isFinite = true := by
  have hm : (F64.mulExact x signedMath.Pi).isFinite = true :=
    F64.isFinite_mulExact x _ hx rfl
  obtain ⟨p, hp⟩ := (F64.isFinite_iff _).mp hm
  show (F64.divExact (F64.mulExact x signedMath.Pi) (F64.fin 180)).isFinite = true
  unfold F64.divExact
  rw [hp]
  simp only [F64.toRat?]
  rw [if_neg (by norm_num)]
  exact (F64.isFinite_iff _).mpr ⟨_, F64.toRat?_ofRat _ _⟩

/-! ### HaversineDistance -/

/-- Helper: a NaN first latitude gives a NaN distance, for every arithmetic
that propagates NaN. -/
theorem HaversineDistance_nan_latitude (dc : DistanceCalculator)
    (h : dc.math.PropagatesNaN) (lon1 lat2 lon2 : F64) :
    dc.HaversineDistance F64.nan lon1 lat2 lon2 = F64.nan := by
  unfold DistanceCalculator.HaversineDistance
  simp only [h.mul_nan_left, h.div_nan_left, h.sub_nan_right, h.Sin_nan, h.add_nan_left,
    h.Sqrt_nan, h.Atan2_nan_left, h.mul_nan_right]

/-- Helper: the half-difference sine of swapped operands is the negation of
the original one, or the same value. -/
theorem FloatMath.SignSymmetric.sin_half_swap {m : FloatMath} (h : m.SignSymmetric)
    (x y : F64) :
    m.Sin (m.div (m.sub y x) (F64.fin 2)) = (m.Sin (m.div (m.sub x y) (F64.fin 2))).neg ∨
    m.Sin (m.div (m.sub y x) (F64.fin 2)) = m.Sin (m.div (m.sub x y) (F64.fin 2)) := by
  rcases h.sub_swap x y with hs | ⟨h1, h2⟩
  · left
    rw [hs, h.div_neg, h.Sin_neg]
  · right
    rw [h1, h2]

/-- Helper: negation passes through the first operand of a product. -/
theorem FloatMath.SignSymmetric.neg_mul {m : FloatMath} (h : m.SignSymmetric)
    (a b : F64) : m.mul a.neg b = (m.mul a b).neg := by
  rw [h.mul_comm, h.mul_neg, h.mul_comm]

/-- Helper: a product by the same factor twice does not see the factor's sign. -/
theorem FloatMath.SignSymmetric.mul_mul_swap {m : FloatMath} (h : m.SignSymmetric)
    (c s t : F64) (hst : t = s.neg ∨ t = s) :
    m.mul (m.mul c t) t = m.mul (m.mul c s) s := by
  rcases hst with rfl | rfl
  · rw [h.mul_neg, h.mul_neg, h.neg_mul, F64.neg_neg]
  · rfl

/-- Helper: a square does not see the sign of its operand. -/
theorem FloatMath.SignSymmetric.mul_self_swap {m : FloatMath} (h : m.SignSymmetric)
    (s t : F64) (hst : t = s.neg ∨ t = s) : m.mul t t = m.mul s s := by
  rcases hst with rfl | rfl
  · rw [h.mul_neg, h.neg_mul, F64.neg_neg]
  · rfl

/-- Helper: a NaN second latitude gives a NaN distance, for every arithmetic
that propagates NaN. -/
theorem HaversineDistance_nan_latitude2 (dc : DistanceCalculator)
    (h : dc.math.PropagatesNaN) (lat1 lon1 lon2 : F64) :
    dc.HaversineDistance lat1 lon1 F64.nan lon2 = F64.nan := by
  unfold DistanceCalculator.HaversineDistance
  simp only [h.mul_nan_left, h.div_nan_left, h.sub_nan_left, h.Sin_nan, h.add_nan_left,
    h.Sqrt_nan, h.Atan2_nan_left, h.mul_nan_right]

/-- Helper: `a == a` holds exactly when `a` is not NaN. -/
theorem F64.eq_self_iff (a : F64) : F64.eq a a = true ↔ a.isNaN = false := by
  cases a <;> simp [F64.eq, F64.isNaN]

/-- Helper: a finite value is not NaN. -/
theorem F64.isNaN_of_isFinite (a : F64) (ha : a.isFinite = true) : a.isNaN = false := by
  cases a <;> simp_all [F64.isFinite, F64.isNaN]

/-- Helper: `addExact` of finite values is finite. -/
theorem F64.isFinite_addExact (a b : F64) (ha : a.isFinite = true) (hb : b.isFinite = true) :
    (F64.addExact a b).isFinite = true := by
  obtain ⟨p, hp⟩ := (F64.isFinite_iff a).mp ha
  obtain ⟨q, hq⟩ := (F64.isFinite_iff b).mp hb
  unfold F64.addExact
  rw [hp, hq]
  exact (F64.isFinite_iff _).mpr ⟨_, F64.toRat?_ofRat _ _⟩

/-- Helper: `subExact` of finite values is finite. -/
theorem F64.isFinite_subExact (a b : F64) (ha : a.isFinite = true) (hb : b.isFinite = true) :
    (F64.subExact a b).isFinite = true := by
  obtain ⟨p, hp⟩ := (F64.isFinite_iff a).mp ha
  obtain ⟨q, hq⟩ := (F64.isFinite_iff b).mp hb
  unfold F64.subExact
  rw [hp, hq]
  exact (F64.isFinite_iff _).mpr ⟨_, F64.toRat?_ofRat _ _⟩

/-- Helper: `divExact` of a finite value by 2 is finite. -/
theorem F64.isFinite_divExact_two (a : F64) (ha : a.isFinite = true) :
    (F64.divExact a (F64.fin 2)).isFinite = true := by
  obtain ⟨p, hp⟩ := (F64.isFinite_iff a).mp ha
  unfold F64.divExact
  rw [hp]
  simp only [F64.toRat?]
  rw [if_neg (by norm_num)]
  exact (F64.isFinite_iff _).mpr ⟨_, F64.toRat?_ofRat _ _⟩

/-- Helper: in `signedMath`, the cosine of a finite value is finite. -/
theorem signedMath_Cos_finite (x : F64) (hx : x.isFinite = true) :
    (signedMath.Cos x).isFinite = true := by
  obtain ⟨p, hp⟩ := (F64.isFinite_iff x).mp hx
  show (match x.toRat? with
    | some _ => F64.fin 1
    | none => F64.nan).isFinite = true
  rw [hp]
  rfl

/-- Helper: in `signedMath`, `Atan2` of finite values is finite. -/
theorem signedMath_Atan2_finite (y x : F64) (hy : y.isFinite = true)
    (hx : x.isFinite = true) : (signedMath.Atan2 y x).isFinite = true := by
  show (if x.isNaN then F64.nan else y).isFinite = true
  rw [F64.isNaN_of_isFinite x hx]
  exact hy

/-- Helper: in `signedMath`, the distance between finite coordinates is finite. -/
theorem signedMath_HaversineDistance_finite (lat1 lon1 lat2 lon2 : F64)
    (h1 : lat1.isFinite = true) (h2 : lon1.isFinite = true)
    (h3 : lat2.isFinite = true) (h4 : lon2.isFinite = true) :
    ((DistanceCalculator.mk signedMath).HaversineDistance lat1 lon1 lat2 lon2).isFinite =
      true := by
  have hx1 := signedMath_radians_finite lat1 h1
  have hy1 := signedMath_radians_finite lon1 h2
  have hx2 := signedMath_radians_finite lat2 h3
  have hy2 := signedMath_radians_finite lon2 h4
  have hs := F64.isFinite_divExact_two _ (F64.isFinite_subExact _ _ hx2 hx1)
  have ht := F64.isFinite_divExact_two _ (F64.isFinite_subExact _ _ hy2 hy1)
  have ha := F64.isFinite_addExact _ _ (F64.isFinite_mulExact _ _ hs hs)
    (F64.isFinite_mulExact _ _
      (F64.isFinite_mulExact _ _
        (F64.isFinite_mulExact _ _ (signedMath_Cos_finite _ hx1) (signedMath_Cos_finite _ hx2))
        ht) ht)
  exact F64.isFinite_mulExact _ _ rfl (F64.isFinite_mulExact _ _ rfl
    (signedMath_Atan2_finite _ _ ha (F64.isFinite_subExact _ _ rfl ha)))

/-- C11 (counterexample): with a NaN latitude on one side, both
`HaversineDistance(NaN, 0, 0, 0)` and `HaversineDistance(0, 0, NaN, 0)` are
NaN, and Go's `==` between them is false. Every float operation on NaN yields
NaN, in Go as in `signedMath`. -/
theorem HaversineDistance_nan_not_equal :
    (DistanceCalculator.mk signedMath).HaversineDistance F64.nan (F64.fin 0)
        (F64.fin 0) (F64.fin 0) = F64.nan ∧
    (DistanceCalculator.mk signedMath).HaversineDistance (F64.fin 0) (F64.fin 0)
        F64.nan (F64.fin 0) = F64.nan ∧
    F64.eq
      ((DistanceCalculator.mk signedMath).HaversineDistance F64.nan (F64.fin 0)
        (F64.fin 0) (F64.fin 0))
      ((DistanceCalculator.mk signedMath).HaversineDistance (F64.fin 0) (F64.fin 0)
        F64.nan (F64.fin 0)) = false := by
  have hl := HaversineDistance_nan_latitude (DistanceCalculator.mk signedMath)
    signedMath_propagatesNaN (F64.fin 0) (F64.fin 0) (F64.fin 0)
  have hr := HaversineDistance_nan_latitude2 (DistanceCalculator.mk signedMath)
    signedMath_propagatesNaN (F64.fin 0) (F64.fin 0) (F64.fin 0)
  refine ⟨hl, hr, ?_⟩
  rw [hl, hr]
  rfl

/-- C11 (amended): for every arithmetic with the sign symmetries of IEEE 754
and of `math.Sin`, and for all coordinate pairs, `HaversineDistance(lat1, lon1,
lat2, lon2)` and `HaversineDistance(lat2, lon2, lat1, lon1)` are the same
`float64`, and Go's `==` holds between them exactly when that value is not
NaN. -/
theorem HaversineDistance_symmetric (dc : DistanceCalculator)
    (h : dc.math.SignSymmetric) (lat1 lon1 lat2 lon2 : F64) :
    dc.HaversineDistance lat1 lon1 lat2 lon2 = dc.HaversineDistance lat2 lon2 lat1 lon1 ∧
    (F64.eq (dc.HaversineDistance lat1 lon1 lat2 lon2)
        (dc.HaversineDistance lat2 lon2 lat1 lon1) = true ↔
      (dc.HaversineDistance lat1 lon1 lat2 lon2).isNaN = false) := by
  have hsym : dc.HaversineDistance lat1 lon1 lat2 lon2 =
      dc.HaversineDistance lat2 lon2 lat1 lon1 := by
    unfold DistanceCalculator.HaversineDistance
    simp only []
    rw [h.mul_self_swap _ _ (h.sin_half_swap
        (dc.math.div (dc.math.mul lat2 dc.math.Pi) (F64.fin 180))
        (dc.math.div (dc.math.mul lat1 dc.math.Pi) (F64.fin 180))),
      h.mul_mul_swap _ _ _ (h.sin_half_swap
        (dc.math.div (dc.math.mul lon2 dc.math.Pi) (F64.fin 180))
        (dc.math.div (dc.math.mul lon1 dc.math.Pi) (F64.fin 180))),
      h.mul_comm (dc.math.Cos (dc.math.div (dc.math.mul lat2 dc.math.Pi) (F64.fin 180)))]
  refine ⟨hsym, ?_⟩
  rw [← hsym]
  exact F64.eq_self_iff _

/-- Witness for C11 (amended): New York (40.7128, -74.0060) and Los Angeles
(34.0522, -118.2437), the pair of the repository's test, in `signedMath`: the
two distances are the same value, it is finite, and `==` holds. -/
theorem HaversineDistance_symmetric_witness :
    (DistanceCalculator.mk signedMath).HaversineDistance (F64.fin 40.7128)
        (F64.fin (-74.0060)) (F64.fin 34.0522) (F64.fin (-118.2437)) =
      (DistanceCalculator.mk signedMath).HaversineDistance (F64.fin 34.0522)
        (F64.fin (-118.2437)) (F64.fin 40.7128) (F64.fin (-74.0060)) ∧
    F64.eq
      ((DistanceCalculator.mk signedMath).HaversineDistance (F64.fin 40.7128)
        (F64.fin (-74.0060)) (F64.fin 34.0522) (F64.fin (-118.2437)))
      ((DistanceCalculator.mk signedMath).HaversineDistance (F64.fin 34.0522)
        (F64.fin (-118.2437)) (F64.fin 40.7128) (F64.fin (-74.0060))) = true := by
  have h := HaversineDistance_symmetric (DistanceCalculator.mk signedMath)
    signedMath_signSymmetric
    (F64.fin 40.7128) (F64.fin (-74.0060)) (F64.fin 34.0522) (F64.fin (-118.2437))
  exact ⟨h.1, h.2.mpr (F64.isNaN_of_isFinite _
    (signedMath_HaversineDistance_finite _ _ _ _ rfl rfl rfl rfl))⟩

/-- C12 (counterexample): the distance from the point (NaN, 0) to itself is
NaN, not 0. Every float operation on NaN yields NaN, in Go as in
`signedMath`, and `NaN == 0` is false. -/
theorem HaversineDistance_self_nan :
    (DistanceCalculator.mk signedMath).HaversineDistance F64.nan (F64.fin 0)
        F64.nan (F64.fin 0) = F64.nan ∧
    F64.eq ((DistanceCalculator.mk signedMath).HaversineDistance F64.nan (F64.fin 0)
        F64.nan (F64.fin 0)) (F64.fin 0) = false := by
  have hnan := HaversineDistance_nan_latitude (DistanceCalculator.mk signedMath)
    signedMath_propagatesNaN (F64.fin 0) F64.nan (F64.fin 0)
  refine ⟨hnan, ?_⟩
  rw [hnan]
  rfl

/-- Helper: the value `a` of the Haversine formula is a zero when both
differences are taken between a finite value and itself. -/
theorem FloatMath.ExactAtZero.haversine_a_zero {m : FloatMath} (h : m.ExactAtZero)
    (x y : F64) (hx : x.isFinite = true) (hy : y.isFinite = true) :
    (m.add
      (m.mul (m.Sin (m.div (m.sub x x) (F64.fin 2))) (m.Sin (m.div (m.sub x x) (F64.fin 2))))
      (m.mul
        (m.mul (m.mul (m.Cos x) (m.Cos x)) (m.Sin (m.div (m.sub y y) (F64.fin 2))))
        (m.Sin (m.div (m.sub y y) (F64.fin 2))))).isZero = true := by
  have hs : (m.Sin (m.div (m.sub x x) (F64.fin 2))).isZero = true :=
    h.Sin_zero _ (h.div_two _ (h.sub_self x hx))
  have ht : (m.Sin (m.div (m.sub y y) (F64.fin 2))).isZero = true :=
    h.Sin_zero _ (h.div_two _ (h.sub_self y hy))
  have hc : (m.mul (m.mul (m.Cos x) (m.Cos x))
      (m.Sin (m.div (m.sub y y) (F64.fin 2)))).isZero = true :=
    h.mul_zero _ _ (h.Cos_mul_Cos x x hx hx) ht
  exact h.add_zero _ _ (h.mul_zero _ _ (F64.isFinite_of_isZero _ hs) hs)
    (h.mul_zero _ _ (F64.isFinite_of_isZero _ hc) ht)

/-- Helper: from a zero `a`, the Haversine formula yields a zero distance. -/
theorem FloatMath.ExactAtZero.haversine_tail_zero {m : FloatMath} (h : m.ExactAtZero)
    (a : F64) (ha : a.isZero = true) :
    (m.mul (F64.fin 6371)
      (m.mul (F64.fin 2) (m.Atan2 (m.Sqrt a) (m.Sqrt (m.sub (F64.fin 1) a))))).isZero = true := by
  rw [h.one_sub_zero a ha, h.Sqrt_one]
  exact h.mul_zero _ _ rfl (h.mul_zero _ _ rfl (h.Atan2_zero_one _ (h.Sqrt_zero a ha)))

/-- C12 (amended): for every arithmetic that is exact at zero and one as
IEEE 754 and Go's `math` package are, and for all `lat1`, `lon1` whose
conversions to radians `lat1 * Pi / 180` and `lon1 * Pi / 180` are finite,
`HaversineDistance(lat1, lon1, lat1, lon1) == 0`. -/
theorem HaversineDistance_self_zero (dc : DistanceCalculator)
    (h : dc.math.ExactAtZero) (lat1 lon1 : F64)
    (hlat : (dc.math.div (dc.math.mul lat1 dc.math.Pi) (F64.fin 180)).isFinite = true)
    (hlon : (dc.math.div (dc.math.mul lon1 dc.math.Pi) (F64.fin 180)).isFinite = true) :
    F64.eq (dc.HaversineDistance lat1 lon1 lat1 lon1) (F64.fin 0) = true := by
  rw [F64.eq_zero_iff]
  exact h.haversine_tail_zero _ (h.haversine_a_zero _ _ hlat hlon)

/-- Witness for C12 (amended): the "Same point" case of the repository's test,
(40.7128, -74.0060), in `signedMath`. -/
theorem HaversineDistance_self_zero_witness :
    F64.eq ((DistanceCalculator.mk signedMath).HaversineDistance (F64.fin 40.7128)
      (F64.fin (-74.0060)) (F64.fin 40.7128) (F64.fin (-74.0060))) (F64.fin 0) = true :=
  HaversineDistance_self_zero (DistanceCalculator.mk signedMath) signedMath_exactAtZero
    (F64.fin 40.7128) (F64.fin (-74.0060))
    (signedMath_radians_finite _ rfl) (signedMath_radians_finite _ rfl)

end Geolocation
